import Mathlib

/-!
# ktap probing core (`library/probe.c`): a shallow embedding

The C functions of `probe.c` are rendered as Lean functions.

* A C string is the list of the characters that precede its terminating NUL
  (`CStr`); a pointer that may be `NULL` is an `Option`.
* Kernel services whose result the file cannot determine (hook registration,
  counter creation, the possible-CPU mask, header constants) are the fields of
  `Kernel`.
* Session state (`G(ks)`), the per-CPU variables and the log of calls made into
  the kernel and the interpreter are the fields of `World`.
-/

namespace Ktap

/-! ## C strings -/

/-- The characters of a NUL-terminated C string, terminator excluded. -/
abbrev CStr := List Char

/-- `strlen`. -/
def strlen (s : CStr) : Nat := s.length

/-- `strcmp`: negative, zero or positive (the C standard fixes only the sign). -/
def strcmp : CStr → CStr → Int
  | [], [] => 0
  | [], _ :: _ => -1
  | _ :: _, [] => 1
  | a :: as, b :: bs => if a = b then strcmp as bs else if a.toNat < b.toNat then -1 else 1

/-- `strncmp`: as `strcmp`, looking at no more than `n` characters. -/
def strncmp : CStr → CStr → Nat → Int
  | _, _, 0 => 0
  | [], [], _ + 1 => 0
  | [], _ :: _, _ + 1 => -1
  | _ :: _, [], _ + 1 => 1
  | a :: as, b :: bs, n + 1 =>
    if a = b then strncmp as bs n else if a.toNat < b.toNat then -1 else 1

/-- `strncpy(dst, src, n)` into a zero-filled buffer of more than `n` bytes: the
string then held by `dst` is the first `n` characters of `src`. -/
def strncpy (src : CStr) (n : Nat) : CStr := src.take n

/-- The token `strsep` returns for a non-NULL `*stringp`: the text before the
first delimiter (the whole string when there is none). -/
def strsep_token : CStr → Char → CStr
  | [], _ => []
  | c :: cs, d => if c = d then [] else c :: strsep_token cs d

/-- The value `strsep` leaves in `*stringp`: the text after the first delimiter,
or NULL when the string holds no delimiter. -/
def strsep_rest : CStr → Char → Option CStr
  | [], _ => none
  | c :: cs, d => if c = d then some cs else strsep_rest cs d

/-- `strsep(&stringp, delim)` for a one-character `delim`: the returned token and
the new `*stringp`. A NULL `*stringp` yields NULL and stays NULL. -/
def strsep (stringp : Option CStr) (delim : Char) : Option CStr × Option CStr :=
  match stringp with
  | none => (none, none)
  | some s => (some (strsep_token s delim), strsep_rest s delim)

/-! ## The event catalog (`ftrace_events`) -/

/-- `struct ftrace_event_field`. -/
structure ftrace_event_field where
  name : CStr
  type : CStr
  offset : Int
  size : Int
  is_signed : Int
  deriving DecidableEq, Repr

/-- `struct ftrace_event_class`, the members `probe.c` reads. `reg` says whether
the `reg` callback pointer is non-NULL; `get_fields` is the list the optional
`get_fields` callback returns. -/
structure ftrace_event_class where
  system : CStr
  reg : Bool
  get_fields : Option (List ftrace_event_field)
  fields : List ftrace_event_field
  deriving DecidableEq, Repr

/-- `struct trace_event`, the member `probe.c` reads. -/
structure trace_event where
  type : Nat
  deriving DecidableEq, Repr

/-- `struct ftrace_event_call`, the members `probe.c` reads (`class_` is the C
member `class`). -/
structure ftrace_event_call where
  name : Option CStr
  class_ : Option ftrace_event_class
  event : trace_event
  print_fmt : Option CStr
  flags : Nat
  deriving DecidableEq, Repr

/-! ## `ftrace_on_event_call` -/

/-- The three filters `ftrace_on_event_call` derives from its argument. -/
structure EventFilter where
  match_ : Option CStr
  sub : Option CStr
  event : Option CStr
  deriving DecidableEq, Repr

/-- Lines 484-516: copy at most 31 bytes of `buf` into `new_buf[32]`, split at
the first colon, and turn an empty or `*` half into NULL. -/
def parse_event_spec (buf : Option CStr) : EventFilter :=
  let buf_ptr : Option CStr := buf.map (fun b => strncpy b 31)
  let r := strsep buf_ptr ':'
  match r.2 with
  | some rest =>
    let sub := r.1
    let event : Option CStr := some rest
    let sub := match sub with
      | some s => if strlen s = 0 || strcmp s ['*'] == 0 then none else some s
      | none => none
    let event := match event with
      | some s => if strlen s = 0 || strcmp s ['*'] == 0 then none else some s
      | none => none
    { match_ := none, sub := sub, event := event }
  | none => { match_ := r.1, sub := none, event := none }

/-- Lines 520-535: `true` when the loop body reaches `(*actor)(call, data)`,
`false` when one of the `continue` statements is taken. `ignore_enable` is
the header constant `TRACE_EVENT_FL_IGNORE_ENABLE`. -/
def event_call_selected (ignore_enable : Nat) (f : EventFilter)
    (call : ftrace_event_call) : Bool :=
  match call.name, call.class_ with
  | some name, some cls =>
    if !cls.reg then false
    else if call.flags &&& ignore_enable != 0 then false
    else if (match f.match_ with
        | some m => strcmp m name != 0 && strcmp m cls.system != 0
        | none => false) then false
    else if (match f.sub with
        | some s => strcmp s cls.system != 0
        | none => false) then false
    else if (match f.event with
        | some ev => strcmp ev name != 0
        | none => false) then false
    else true
  | _, _ => false

/-- `ftrace_on_event_call(buf, actor, data)`: walk `ftrace_events_ptr` in list
order and run `actor` on every selected entry. The state `σ` stands for whatever
the actor updates through `data` and the globals. -/
def ftrace_on_event_call {σ : Type} (ignore_enable : Nat)
    (ftrace_events_ptr : List ftrace_event_call) (buf : Option CStr)
    (actor : ftrace_event_call → σ → σ) (data : σ) : σ :=
  let f := parse_event_spec buf
  ftrace_events_ptr.foldl
    (fun st call => if event_call_selected ignore_enable f call then actor call st else st)
    data

/-! ## Vocabulary of the matching rules -/

/-- An entry is eligible when its name and class are present, its class has a
registration callback, and its ignore flag is clear. -/
def eligible (ignore_enable : Nat) (call : ftrace_event_call) : Bool :=
  match call.name, call.class_ with
  | some _, some cls => cls.reg && (call.flags &&& ignore_enable == 0)
  | _, _ => false

/-- The entry's name is `s`. -/
def has_name (call : ftrace_event_call) (s : CStr) : Bool := call.name == some s

/-- The entry's subsystem is `s`. -/
def has_system (call : ftrace_event_call) (s : CStr) : Bool :=
  call.class_.map (fun c => c.system) == some s

/-- The `subsystem:name` rule for a left part `l` and a right part `r`. -/
def colon_rule (l r : CStr) (call : ftrace_event_call) : Bool :=
  (l == [] || l == ['*'] || has_system call l) && (r == [] || r == ['*'] || has_name call r)

/-- The single-token rule: the token is the name or the subsystem. -/
def token_rule (t : CStr) (call : ftrace_event_call) : Bool :=
  has_name call t || has_system call t

/-- The actor that records the entries it is handed, in order. -/
def record_actor (call : ftrace_event_call) (seen : List ftrace_event_call) :
    List ftrace_event_call := seen ++ [call]

/-! ## Data of the probing core -/

/-- `struct pt_regs` (x86), the registers `event_regstr` prints. -/
structure pt_regs where
  ax : Nat
  orig_ax : Nat
  bx : Nat
  cx : Nat
  dx : Nat
  si : Nat
  di : Nat
  bp : Nat
  ds : Nat
  es : Nat
  fs : Nat
  gs : Nat
  ip : Nat
  cs : Nat
  flags : Nat
  sp : Nat
  ss : Nat
  deriving DecidableEq, Repr

/-- `struct perf_raw_record`: the raw sample, as bytes. -/
structure perf_raw_record where
  size : Nat
  data : List Nat
  deriving DecidableEq, Repr

/-- `struct perf_sample_data`, the member `probe.c` reads. -/
structure perf_sample_data where
  raw : Option perf_raw_record
  deriving DecidableEq, Repr

/-- `struct ktap_event`: the event view a handler builds on its stack. -/
structure ktap_event where
  call : Option ftrace_event_call
  entry : Option (List Nat)
  entry_size : Nat
  regs : Option pt_regs
  type : Nat
  deriving DecidableEq, Repr

/-- The `EVENT_TYPE_*` enumeration. -/
def EVENT_TYPE_DEFAULT : Nat := 0

/-- Second enumerator. -/
def EVENT_TYPE_SYSCALL_ENTER : Nat := 1

/-- Third enumerator. -/
def EVENT_TYPE_SYSCALL_EXIT : Nat := 2

/-- Fourth enumerator. -/
def EVENT_TYPE_TRACEPOINT_MAX : Nat := 3

/-- Fifth enumerator. -/
def EVENT_TYPE_KPROBE : Nat := 4

/-- What running a script closure can cause on the CPU it runs on: the probed
location of the `i`-th registry record is executed, or the counter of the
`i`-th registry record overflows. -/
inductive Action where
  | kprobe_hit (i : Nat) (regs : Option pt_regs)
  | perf_overflow (i : Nat) (data : perf_sample_data) (regs : Option pt_regs)
  deriving DecidableEq, Repr

/-- A script closure: `numparams` is `cl->l.p->numparams`, `body` is what
executing it does as far as the probing core can observe. -/
structure Closure where
  numparams : Nat
  body : List Action
  deriving DecidableEq, Repr

/-- The interpreter values `probe.c` stores (`setnilvalue`, `setbvalue`,
`setnvalue`, `setsvalue`, `setcllvalue`, `setevalue`). -/
inductive Tvalue where
  | nil
  | boolean (b : Bool)
  | number (n : Int)
  | string (s : CStr)
  | closure (cl : Closure)
  | event (e : ktap_event)
  deriving DecidableEq, Repr

/-- An interpreter thread, as far as `probe.c` touches it: its stack, the top
being the end of the list. -/
structure ktap_State where
  stack : List Tvalue
  deriving DecidableEq, Repr

/-- `struct perf_event_attr`, the members `enable_tracepoint` sets. -/
structure perf_event_attr where
  type : Nat
  config : Nat
  sample_type : Nat
  sample_period : Nat
  deriving DecidableEq, Repr

/-- `struct perf_event`, the members `probe.c` reads. -/
structure perf_event where
  attr : perf_event_attr
  cpu : Nat
  tp_event : Option ftrace_event_call
  deriving DecidableEq, Repr

/-- `struct kprobe`: the symbol; `pre_handler` is always `pre_handler_kprobe` and
the other handlers are NULL. -/
structure kprobe where
  symbol_name : CStr
  deriving DecidableEq, Repr

/-- The union `u` of `struct ktap_probe_event`; `zero` is the state `ktap_zalloc`
leaves it in. -/
inductive probe_union where
  | zero
  | perf (e : perf_event)
  | p (k : kprobe)
  deriving DecidableEq, Repr

/-- The two functions the `destructor` member can point to. -/
inductive Destructor where
  | kprobe_destructor
  | perf_destructor
  deriving DecidableEq, Repr

/-- `struct ktap_probe_event` (the `list` member is the position in the
registry; `ks` is the one session). -/
structure ktap_probe_event where
  type : Nat
  u : probe_union
  cl : Closure
  destructor : Destructor
  deriving DecidableEq, Repr

/-- `struct ktap_trace_arg` (`ks` is the one session). -/
structure ktap_trace_arg where
  cl : Closure
  deriving DecidableEq, Repr

/-- `struct task_struct`: the thread group a task belongs to. -/
structure task_struct where
  pid : Nat
  signal : Nat
  deriving DecidableEq, Repr

/-- `same_thread_group(p1, p2)`: both tasks share their `signal` structure. -/
def same_thread_group (p1 p2 : task_struct) : Bool := p1.signal == p2.signal

/-- An argument of a `ktap_printf` call. -/
inductive printf_arg where
  | s (x : Option CStr)
  | d (x : Int)
  deriving DecidableEq, Repr

/-- One `ktap_printf` call: the format and its arguments. -/
structure printf_call where
  fmt : String
  args : List printf_arg
  deriving DecidableEq, Repr

/-- The calls `probe.c` makes into the kernel and the interpreter. -/
inductive Effect where
  | ktap_zalloc
  | ktap_free (r : ktap_probe_event)
  | list_add_tail (r : ktap_probe_event)
  | list_del (r : ktap_probe_event)
  | register_kprobe (k : kprobe) (ret : Int)
  | unregister_kprobe (u : probe_union)
  | perf_event_create_kernel_counter (attr : perf_event_attr) (cpu : Nat)
  | perf_event_enable (e : perf_event)
  | perf_event_disable (u : probe_union)
  | perf_event_release_kernel (u : probe_union)
  | tracepoint_synchronize_unregister
  | ktap_newthread
  | ktap_call (cl : Closure) (args : List Tvalue)
  | ktap_exitthread
  deriving DecidableEq, Repr

/-- The state `probe.c` works on: the registry `G(ks)->probe_events_head`, the
controlling task `G(ks)->task`, the per-CPU variable `ktap_in_tracing`, the
per-CPU interrupt-disable state, the text sent to `ktap_printf`, and the log of
calls. -/
structure World where
  probe_events_head : List ktap_probe_event
  task : task_struct
  ktap_in_tracing : Nat → Bool
  irqs_disabled : Nat → Bool
  output : List printf_call
  calls : List Effect

/-- What the kernel decides: header constants, the possible-CPU mask, and the
outcome of hook registration and counter creation. -/
structure Kernel where
  TRACE_EVENT_FL_IGNORE_ENABLE : Nat
  ENTRY_HEADSIZE : Nat
  sizeof_long : Nat
  possible_cpus : List Nat
  register_kprobe : kprobe → Int
  perf_event_create_kernel_counter : perf_event_attr → Nat → Except Int perf_event

/-- `ktap_printf`. -/
def ktap_printf (w : World) (fmt : String) (args : List printf_arg) : World :=
  { w with output := w.output ++ [{ fmt := fmt, args := args }] }

/-- Append one call to the log. -/
def log_call (w : World) (c : Effect) : World := { w with calls := w.calls ++ [c] }

/-! ## Dispatch: `ktap_call_probe_closure` and the two handlers -/

/-- Run the observable actions of a closure body in order; `fire` says what a
hook firing does. -/
def run_actions (fire : Action → World → Option World) : List Action → World → Option World
  | [], w => some w
  | a :: rest, w =>
    match fire a w with
    | some w1 => run_actions fire rest w1
    | none => none

/-- Modelled from the spec: `ktap_newthread` of the interpreter, "create a new
lightweight execution context derived from the session's main context"; the new
context starts with an empty stack. -/
def ktap_newthread (w : World) : ktap_State × World :=
  ({ stack := [] }, log_call w Effect.ktap_newthread)

/-- Modelled from the spec: `ktap_call` of the interpreter, "invoke": the value
at stack slot `func` is called with the values above it. -/
def ktap_call (fire : Action → World → Option World) (ks : ktap_State) (func : Nat)
    (w : World) : Option World :=
  match ks.stack.get? func with
  | some (Tvalue.closure cl) =>
    run_actions fire cl.body (log_call w (Effect.ktap_call cl (ks.stack.drop (func + 1))))
  | _ => none

/-- Modelled from the spec: `ktap_exitthread` of the interpreter, "tear down the
lightweight context". -/
def ktap_exitthread (_ks : ktap_State) (w : World) : World :=
  log_call w Effect.ktap_exitthread

/-- `ktap_call_probe_closure(mainthread, cl, e)`. -/
def ktap_call_probe_closure (fire : Action → World → Option World) (cl : Closure)
    (e : ktap_event) (w : World) : Option World :=
  let r := ktap_newthread w
  let ks := r.1
  let func := ks.stack.length
  let ks : ktap_State := { stack := ks.stack ++ [Tvalue.closure cl] }
  let ks : ktap_State :=
    if cl.numparams != 0 then { stack := ks.stack ++ [Tvalue.event e] } else ks
  match ktap_call fire ks func r.2 with
  | some w1 => some (ktap_exitthread ks w1)
  | none => none

/-- `pre_handler_kprobe(p, regs)` running on `cpu` in the context of task
`current`; `ktap_pevent` is the record that contains `p`. -/
def pre_handler_kprobe (fire : Action → World → Option World) (cpu : Nat)
    (current : task_struct) (ktap_pevent : ktap_probe_event) (regs : Option pt_regs)
    (w : World) : Option (Int × World) :=
  if w.ktap_in_tracing cpu then some (0, w)
  else
    let w := { w with ktap_in_tracing := Function.update w.ktap_in_tracing cpu true }
    let e : ktap_event :=
      { call := none, entry := none, entry_size := 0, regs := regs, type := ktap_pevent.type }
    if same_thread_group current w.task then
      some (0, { w with ktap_in_tracing := Function.update w.ktap_in_tracing cpu false })
    else
      match ktap_call_probe_closure fire ktap_pevent.cl e w with
      | some w1 =>
        some (0, { w1 with ktap_in_tracing := Function.update w1.ktap_in_tracing cpu false })
      | none => none

/-- `ktap_overflow_callback(event, data, regs)` running on `cpu` in the context
of task `current`; `ktap_pevent` is `event->overflow_handler_context`. -/
def ktap_overflow_callback (fire : Action → World → Option World) (cpu : Nat)
    (current : task_struct) (event : perf_event) (ktap_pevent : ktap_probe_event)
    (data : perf_sample_data) (regs : Option pt_regs) (w : World) : Option World :=
  if w.ktap_in_tracing cpu then some w
  else
    match data.raw with
    | none => none
    | some raw =>
      let e : ktap_event :=
        { call := event.tp_event, entry := some raw.data, entry_size := raw.size,
          regs := regs, type := ktap_pevent.type }
      let irq_flags := w.irqs_disabled cpu
      let w := { w with irqs_disabled := Function.update w.irqs_disabled cpu true }
      let w := { w with ktap_in_tracing := Function.update w.ktap_in_tracing cpu true }
      if same_thread_group current w.task then
        let w := { w with ktap_in_tracing := Function.update w.ktap_in_tracing cpu false }
        some { w with irqs_disabled := Function.update w.irqs_disabled cpu irq_flags }
      else
        match ktap_call_probe_closure fire ktap_pevent.cl e w with
        | some w1 =>
          let w1 := { w1 with ktap_in_tracing := Function.update w1.ktap_in_tracing cpu false }
          some { w1 with irqs_disabled := Function.update w1.irqs_disabled cpu irq_flags }
        | none => none

/-- A hook firing on `cpu` while task `current` runs there: the handler of the
registry record concerned is entered. The first argument bounds how deeply
closure executions may nest. -/
def fire_hook (cpu : Nat) (current : task_struct) : Nat → Action → World → Option World
  | 0, _, _ => none
  | n + 1, Action.kprobe_hit i regs, w =>
    match w.probe_events_head.get? i with
    | some r =>
      (pre_handler_kprobe (fire_hook cpu current n) cpu current r regs w).map (fun x => x.2)
    | none => some w
  | n + 1, Action.perf_overflow i data regs, w =>
    match w.probe_events_head.get? i with
    | some r =>
      match r.u with
      | probe_union.perf event =>
        ktap_overflow_callback (fire_hook cpu current n) cpu current event r data regs w
      | _ => some w
    | none => some w

/-! ## Point probes -/

/-- `list_del` of the node at position `i` of a registry. -/
def list_del (l : List ktap_probe_event) (i : Nat) : List ktap_probe_event := l.eraseIdx i

/-- `kprobe_destructor`. -/
def kprobe_destructor (ktap_pevent : ktap_probe_event) (w : World) : World :=
  log_call w (Effect.unregister_kprobe ktap_pevent.u)

/-- `start_kprobe(ks, event_name, cl)`: the return value and the new state. -/
def start_kprobe (K : Kernel) (w : World) (event_name : CStr) (cl : Closure) : Int × World :=
  let w := log_call w Effect.ktap_zalloc
  let ktap_pevent : ktap_probe_event :=
    { type := EVENT_TYPE_KPROBE, u := probe_union.p { symbol_name := event_name }, cl := cl,
      destructor := Destructor.kprobe_destructor }
  let pos := w.probe_events_head.length
  let w := log_call { w with probe_events_head := w.probe_events_head ++ [ktap_pevent] }
    (Effect.list_add_tail ktap_pevent)
  let ret := K.register_kprobe { symbol_name := event_name }
  let w := log_call w (Effect.register_kprobe { symbol_name := event_name } ret)
  if ret != 0 then
    let w := ktap_printf w "Cannot register probe: %s\n" [printf_arg.s (some event_name)]
    let w := log_call { w with probe_events_head := list_del w.probe_events_head pos }
      (Effect.list_del ktap_pevent)
    (-1, w)
  else (0, w)

/-! ## Event accessors -/

/-- Little-endian read of `n` bytes at offset `off`; `none` outside the data. -/
def read_le (mem : List Nat) (off : Nat) : Nat → Option Nat
  | 0 => some 0
  | n + 1 =>
    match mem.get? off, read_le mem (off + 1) n with
    | some b, some v => some (b % 256 + 256 * v)
    | _, _ => none

/-- The C read `*(int *)((unsigned char *)entry + off)`; `none` when `entry` is
NULL or the four bytes are not inside the payload. -/
def read_int (entry : Option (List Nat)) (off : Int) : Option Int :=
  match entry with
  | none => none
  | some mem =>
    if off < 0 then none
    else (read_le mem off.toNat 4).map
      (fun v => if v < 2 ^ 31 then (v : Int) else (v : Int) - 2 ^ 32)

/-- The C read of an `unsigned long` at offset `off` of `entry`. -/
def read_ulong (K : Kernel) (entry : Option (List Nat)) (off : Nat) : Option Nat :=
  match entry with
  | none => none
  | some mem => read_le mem off K.sizeof_long

/-- Member `nr` of `struct syscall_trace_enter`: the `int` after the entry head. -/
def syscall_trace_enter_nr (K : Kernel) (entry : Option (List Nat)) : Option Int :=
  read_int entry K.ENTRY_HEADSIZE

/-- Offset of member `args` of `struct syscall_trace_enter`: after `nr`, aligned
for `unsigned long`. -/
def syscall_trace_enter_args_offset (K : Kernel) : Nat :=
  (K.ENTRY_HEADSIZE + 4 + K.sizeof_long - 1) / K.sizeof_long * K.sizeof_long

/-- Member `args[i]` of `struct syscall_trace_enter`. -/
def syscall_trace_enter_args (K : Kernel) (entry : Option (List Nat)) (i : Nat) : Option Nat :=
  read_ulong K entry (syscall_trace_enter_args_offset K + i * K.sizeof_long)

/-- `event_name`: the value stored in `ra`, `none` on a NULL dereference. -/
def event_name (e : ktap_event) : Option Tvalue :=
  match e.call with
  | some call => call.name.map Tvalue.string
  | none => none

/-- `event_print_fmt`. -/
def event_print_fmt (e : ktap_event) : Option Tvalue :=
  match e.call with
  | some call => call.print_fmt.map Tvalue.string
  | none => none

/-- `event_sc_nr`. -/
def event_sc_nr (K : Kernel) (e : ktap_event) : Option Tvalue :=
  if e.type != EVENT_TYPE_SYSCALL_ENTER then some Tvalue.nil
  else (syscall_trace_enter_nr K e.entry).map Tvalue.number

/-- `event_sc_is_enter`. -/
def event_sc_is_enter (e : ktap_event) : Option Tvalue :=
  if e.type == EVENT_TYPE_SYSCALL_ENTER then some (Tvalue.boolean true)
  else some (Tvalue.boolean false)

/-- The functions `EVENT_SC_ARGFUNC(n)` defines. -/
def event_sc_arg (n : Nat) (K : Kernel) (e : ktap_event) : Option Tvalue :=
  if e.type != EVENT_TYPE_SYSCALL_ENTER then some Tvalue.nil
  else (syscall_trace_enter_args K e.entry (n - 1)).map (fun v => Tvalue.number v)

/-- `EVENT_SC_ARGFUNC(1)`. -/
def event_sc_arg1 (K : Kernel) (e : ktap_event) : Option Tvalue := event_sc_arg 1 K e

/-- `EVENT_SC_ARGFUNC(2)`. -/
def event_sc_arg2 (K : Kernel) (e : ktap_event) : Option Tvalue := event_sc_arg 2 K e

/-- `EVENT_SC_ARGFUNC(3)`. -/
def event_sc_arg3 (K : Kernel) (e : ktap_event) : Option Tvalue := event_sc_arg 3 K e

/-- `EVENT_SC_ARGFUNC(4)`. -/
def event_sc_arg4 (K : Kernel) (e : ktap_event) : Option Tvalue := event_sc_arg 4 K e

/-- `EVENT_SC_ARGFUNC(5)`. -/
def event_sc_arg5 (K : Kernel) (e : ktap_event) : Option Tvalue := event_sc_arg 5 K e

/-- `EVENT_SC_ARGFUNC(6)`. -/
def event_sc_arg6 (K : Kernel) (e : ktap_event) : Option Tvalue := event_sc_arg 6 K e

/-- `ktap_get_fields`: the field list head, `none` when `event_call` or its class
is NULL. -/
def ktap_get_fields (event_call : Option ftrace_event_call) :
    Option (List ftrace_event_field) :=
  match event_call with
  | some call =>
    match call.class_ with
    | some cls =>
      match cls.get_fields with
      | none => some cls.fields
      | some l => some l
    | none => none
  | none => none

/-- The loop of `event_field` over the fields it is given (already in the order of
traversal); `index` is the value of the C variable before the iteration. -/
def event_field_loop (entry : Option (List Nat)) : List ftrace_event_field → Int → Option Tvalue
  | [], _ => some Tvalue.nil
  | field :: rest, index =>
    let index := index - 1
    if index = 0 ∧ field.size = 4 then (read_int entry field.offset).map Tvalue.number
    else event_field_loop entry rest index

/-- `event_field(ks, e, index, ra)`: `list_for_each_entry_reverse` walks the field
list from its tail. -/
def event_field (e : ktap_event) (index : Int) : Option Tvalue :=
  match ktap_get_fields e.call with
  | some head => event_field_loop e.entry head.reverse index
  | none => none

/-- `event_field1`. -/
def event_field1 (e : ktap_event) : Option Tvalue := event_field e 1

/-! ## Counter probes -/

/-- `perf_destructor`. -/
def perf_destructor (ktap_pevent : ktap_probe_event) (w : World) : World :=
  log_call (log_call w (Effect.perf_event_disable ktap_pevent.u))
    (Effect.perf_event_release_kernel ktap_pevent.u)

/-- `enable_tracepoint_on_cpu(cpu, attr, call, arg, type)`. -/
def enable_tracepoint_on_cpu (K : Kernel) (cpu : Nat) (attr : perf_event_attr)
    (call : ftrace_event_call) (arg : ktap_trace_arg) (type : Nat) (w : World) : World :=
  let w := log_call w Effect.ktap_zalloc
  let ktap_pevent : ktap_probe_event :=
    { type := type, u := probe_union.zero, cl := arg.cl,
      destructor := Destructor.perf_destructor }
  let w := log_call w (Effect.perf_event_create_kernel_counter attr cpu)
  match K.perf_event_create_kernel_counter attr cpu with
  | Except.error err =>
    let w := ktap_printf w "unable create tracepoint event %s on cpu %d, err: %d\n"
      [printf_arg.s call.name, printf_arg.d cpu, printf_arg.d err]
    log_call w (Effect.ktap_free ktap_pevent)
  | Except.ok event =>
    let ktap_pevent := { ktap_pevent with u := probe_union.perf event }
    let w := log_call { w with probe_events_head := w.probe_events_head ++ [ktap_pevent] }
      (Effect.list_add_tail ktap_pevent)
    log_call w (Effect.perf_event_enable event)

/-- `PERF_TYPE_TRACEPOINT` of the perf ABI. -/
def PERF_TYPE_TRACEPOINT : Nat := 2

/-- `PERF_SAMPLE_RAW | PERF_SAMPLE_TIME | PERF_SAMPLE_CPU | PERF_SAMPLE_PERIOD` of
the perf ABI. -/
def PERF_SAMPLE_MASK : Nat := 2 ^ 10 ||| 2 ^ 2 ||| 2 ^ 7 ||| 2 ^ 8

/-- The classification of lines 455-471, from the event name. -/
def event_type_of_name (name : CStr) : Nat :=
  if strncmp name "sys_enter_".toList 10 == 0 then EVENT_TYPE_SYSCALL_ENTER
  else if strncmp name "sys_exit_".toList 9 == 0 then EVENT_TYPE_SYSCALL_EXIT
  else EVENT_TYPE_DEFAULT

/-- `enable_tracepoint(call, data)`; `none` when `call->name` is NULL (the
`strncmp` would dereference it). -/
def enable_tracepoint (K : Kernel) (arg : ktap_trace_arg) (call : ftrace_event_call)
    (w : World) : Option World :=
  let w := ktap_printf w "enable tracepoint event: %s\n" [printf_arg.s call.name]
  let attr : perf_event_attr :=
    { type := PERF_TYPE_TRACEPOINT, config := call.event.type,
      sample_type := PERF_SAMPLE_MASK, sample_period := 1 }
  match call.name with
  | none => none
  | some name =>
    let type := event_type_of_name name
    some (K.possible_cpus.foldl
      (fun st cpu => enable_tracepoint_on_cpu K cpu attr call arg type st) w)

/-- The actor `enable_tracepoint` as `ftrace_on_event_call` runs it: nothing
further happens once a call has faulted. -/
def enable_tracepoint_actor (K : Kernel) (arg : ktap_trace_arg) (call : ftrace_event_call)
    (st : Option World) : Option World :=
  st.bind (enable_tracepoint K arg call)

/-- `start_tracepoint(ks, event_name, cl)` with `ftrace_events_ptr` the catalog. -/
def start_tracepoint (K : Kernel) (ftrace_events_ptr : List ftrace_event_call) (w : World)
    (event_name : CStr) (cl : Closure) : Option (Int × World) :=
  let event_name : Option CStr := if event_name.head? = none then none else some event_name
  let arg : ktap_trace_arg := { cl := cl }
  (ftrace_on_event_call K.TRACE_EVENT_FL_IGNORE_ENABLE ftrace_events_ptr event_name
    (enable_tracepoint_actor K arg) (some w)).map (fun w1 => (0, w1))

/-- `start_probe(ks, event_name, cl)`. -/
def start_probe (K : Kernel) (ftrace_events_ptr : List ftrace_event_call) (w : World)
    (event_name : CStr) (cl : Closure) : Option (Int × World) :=
  if strncmp event_name "kprobe:".toList 7 == 0 then
    some (start_kprobe K w (event_name.drop 7) cl)
  else if strncmp event_name "kprobes:".toList 8 == 0 then
    some (start_kprobe K w (event_name.drop 8) cl)
  else if strncmp event_name "tracepoint:".toList 11 == 0 then
    start_tracepoint K ftrace_events_ptr w (event_name.drop 11) cl
  else if strncmp event_name "tp:".toList 3 == 0 then
    start_tracepoint K ftrace_events_ptr w (event_name.drop 3) cl
  else
    some (-1, ktap_printf w "unknown probe event name: %s\n" [printf_arg.s (some event_name)])

/-! ## Teardown -/

/-- The call `ktap_pevent->destructor(ktap_pevent)`. -/
def call_destructor (ktap_pevent : ktap_probe_event) (w : World) : World :=
  match ktap_pevent.destructor with
  | Destructor.kprobe_destructor => kprobe_destructor ktap_pevent w
  | Destructor.perf_destructor => perf_destructor ktap_pevent w

/-- The second loop of `end_probes` (`list_for_each_safe`) over the nodes still
to visit: the node visited is the first one left in the registry. -/
def end_probes_free : List ktap_probe_event → World → World
  | [], w => w
  | ktap_pevent :: rest, w =>
    let w := log_call { w with probe_events_head := list_del w.probe_events_head 0 }
      (Effect.list_del ktap_pevent)
    end_probes_free rest (log_call w (Effect.ktap_free ktap_pevent))

/-- `end_probes(ks)`. -/
def end_probes (w : World) : World :=
  let w := w.probe_events_head.foldl (fun st ktap_pevent => call_destructor ktap_pevent st) w
  let w := log_call w Effect.tracepoint_synchronize_unregister
  end_probes_free w.probe_events_head w

/-! ## Reference definitions, following the wording of the specification -/

/-- The dispatcher of the registration grammar: the first of the prefixes
`kprobe:`, `kprobes:`, `tracepoint:`, `tp:` that starts the string decides the
driver, which receives the text after the prefix. -/
def start_probe_reference (K : Kernel) (cat : List ftrace_event_call) (w : World)
    (s : CStr) (cl : Closure) : Option (Int × World) :=
  if "kprobe:".toList <+: s then some (start_kprobe K w (s.drop "kprobe:".toList.length) cl)
  else if "kprobes:".toList <+: s then
    some (start_kprobe K w (s.drop "kprobes:".toList.length) cl)
  else if "tracepoint:".toList <+: s then
    start_tracepoint K cat w (s.drop "tracepoint:".toList.length) cl
  else if "tp:".toList <+: s then start_tracepoint K cat w (s.drop "tp:".toList.length) cl
  else some (-1, { w with output := w.output ++
    [{ fmt := "unknown probe event name: %s\n", args := [printf_arg.s (some s)] }] })

/-- The number of closure invocations in a call log. -/
def closure_calls (calls : List Effect) : Nat :=
  calls.countP (fun c => match c with
    | Effect.ktap_call _ _ => true
    | _ => false)

/-- The event view `pre_handler_kprobe` builds (lines 101-105). -/
def kprobe_event_view (ktap_pevent : ktap_probe_event) (regs : Option pt_regs) : ktap_event :=
  { call := none, entry := none, entry_size := 0, regs := regs, type := ktap_pevent.type }

/-- The event view `ktap_overflow_callback` builds (lines 398-402). -/
def overflow_event_view (event : perf_event) (ktap_pevent : ktap_probe_event)
    (raw : perf_raw_record) (regs : Option pt_regs) : ktap_event :=
  { call := event.tp_event, entry := some raw.data, entry_size := raw.size, regs := regs,
    type := ktap_pevent.type }

/-- The calls one run of `ktap_call_probe_closure` adds to the log when the
closure body causes nothing further. -/
def closure_call_log (cl : Closure) (e : ktap_event) : List Effect :=
  [Effect.ktap_newthread,
   Effect.ktap_call cl (if cl.numparams != 0 then [Tvalue.event e] else []),
   Effect.ktap_exitthread]

/-- The record `enable_tracepoint_on_cpu` appends for a counter it created. -/
def counter_record (arg : ktap_trace_arg) (type : Nat) (event : perf_event) : ktap_probe_event :=
  { type := type, u := probe_union.perf event, cl := arg.cl,
    destructor := Destructor.perf_destructor }

/-- The records for the CPUs of `cpus` on which counter creation succeeds, in
order. -/
def armed_records (K : Kernel) (attr : perf_event_attr) (arg : ktap_trace_arg) (type : Nat)
    (cpus : List Nat) : List ktap_probe_event :=
  cpus.filterMap (fun cpu =>
    match K.perf_event_create_kernel_counter attr cpu with
    | Except.ok event => some (counter_record arg type event)
    | Except.error _ => none)

/-- The attribute block `enable_tracepoint` fills in for an entry. -/
def tracepoint_attr (call : ftrace_event_call) : perf_event_attr :=
  { type := PERF_TYPE_TRACEPOINT, config := call.event.type,
    sample_type := PERF_SAMPLE_MASK, sample_period := 1 }

/-- The calls the teardown of one record makes. -/
def teardown_log (r : ktap_probe_event) : List Effect :=
  match r.destructor with
  | Destructor.kprobe_destructor => [Effect.unregister_kprobe r.u]
  | Destructor.perf_destructor =>
    [Effect.perf_event_disable r.u, Effect.perf_event_release_kernel r.u]

/-- The calls that unlink and free one record. -/
def release_log (r : ktap_probe_event) : List Effect :=
  [Effect.list_del r, Effect.ktap_free r]

/-- The records a call log frees, in order. -/
def freed (calls : List Effect) : List ktap_probe_event :=
  calls.filterMap (fun c => match c with
    | Effect.ktap_free r => some r
    | _ => none)

/-- The number of teardown calls (unhook, or disable of a counter) in a log. -/
def teardown_calls (calls : List Effect) : Nat :=
  calls.countP (fun c => match c with
    | Effect.unregister_kprobe _ => true
    | Effect.perf_event_disable _ => true
    | _ => false)

/-! ## The accessor table -/

/-- The kernel's trace-formatting pipeline as `event_annotate` uses it: the
header constants `PAGE_SIZE` and `TRACE_TYPE_NO_CONSUME`, and the outcome of
`ev->funcs->trace(iter, 0, ev)` for a descriptor and an entry (the return code
and the text left in `iter->seq`). -/
structure TracePipeline where
  PAGE_SIZE : Nat
  TRACE_TYPE_NO_CONSUME : Nat
  trace : ftrace_event_call → Option (List Nat) → Nat × CStr

/-- `event_annotate`. Line 157 stores nil for a type that is not a tracepoint
type and goes on (there is no `return`); that store is overwritten by every path
that completes. `event` is not the first member of `struct ftrace_event_call`, so
with a NULL `e->call` the pointer `ev` is not NULL and `ev->funcs` is read
through it: `none`. -/
def event_annotate (T : TracePipeline) (e : ktap_event) : Option Tvalue :=
  let _ra : Option Tvalue :=
    if e.type ≥ EVENT_TYPE_TRACEPOINT_MAX then some Tvalue.nil else none
  match e.call with
  | none => none
  | some call =>
    let r := T.trace call e.entry
    if r.1 != T.TRACE_TYPE_NO_CONSUME then
      let len := if r.2.length ≥ T.PAGE_SIZE then T.PAGE_SIZE - 1 else r.2.length
      some (Tvalue.string (r.2.take len ++ [Char.ofNat 0]))
    else some Tvalue.nil

/-- The conversion `%lx`. -/
def fmt_lx (n : Nat) : CStr := Nat.toDigits 16 n

/-- The conversion `%d`. -/
def fmt_d (n : Int) : CStr :=
  if n < 0 then '-' :: Nat.toDigits 10 n.natAbs else Nat.toDigits 10 n.toNat

/-- The text `event_regstr` formats into `str[256]`. -/
def regstr_text (regs : pt_regs) : CStr :=
  "\x7bax: 0x".toList ++ fmt_lx regs.ax ++ ", orig_ax: 0x".toList ++ fmt_lx regs.orig_ax ++
  ", bx: 0x".toList ++ fmt_lx regs.bx ++ ", cx: 0x".toList ++ fmt_lx regs.cx ++
  ", dx: 0x".toList ++ fmt_lx regs.dx ++ ", si: 0x".toList ++ fmt_lx regs.si ++
  ", di: 0x".toList ++ fmt_lx regs.di ++ ", bp: 0x".toList ++ fmt_lx regs.bp ++
  ", ds: 0x".toList ++ fmt_lx regs.ds ++ ", es: 0x".toList ++ fmt_lx regs.es ++
  ", fs: 0x".toList ++ fmt_lx regs.fs ++ ", gs: 0x".toList ++ fmt_lx regs.gs ++
  ", ip: 0x".toList ++ fmt_lx regs.ip ++ ", cs: 0x".toList ++ fmt_lx regs.cs ++
  ", flags: 0x".toList ++ fmt_lx regs.flags ++ ", sp: 0x".toList ++ fmt_lx regs.sp ++
  ", ss: 0x".toList ++ fmt_lx regs.ss ++ "\x7d\n".toList

/-- `event_regstr`; `none` when `e->regs` is NULL or the text does not fit the
256-byte buffer. -/
def event_regstr (e : ktap_event) : Option Tvalue :=
  match e.regs with
  | none => none
  | some regs =>
    let str := regstr_text regs
    if str.length ≥ 256 then none else some (Tvalue.string str)

/-- `event_narg`. -/
def event_narg (e : ktap_event) : Option Tvalue :=
  match e.call with
  | some call => call.name.map Tvalue.string
  | none => none

/-- What one iteration of the loop of `event_allfield` appends. -/
def allfield_text (field : ftrace_event_field) : CStr :=
  "[".toList ++ field.name ++ "-".toList ++ field.type ++ "-".toList ++ fmt_d field.offset ++
  "-".toList ++ fmt_d field.size ++ "-".toList ++ fmt_d field.is_signed ++ "] ".toList

/-- `event_allfield`; `none` on a NULL descriptor or when the text does not fit
the 128-byte buffer. -/
def event_allfield (e : ktap_event) : Option Tvalue :=
  match ktap_get_fields e.call with
  | none => none
  | some head =>
    let s := (head.reverse.map allfield_text).flatten
    if s.length ≥ 128 then none else some (Tvalue.string s)

/-- `EVENT_FIELD_BASE`. -/
def EVENT_FIELD_BASE : Int := 100

/-- `struct event_field_tbl`. -/
structure event_field_tbl where
  name : CStr
  func : Kernel → TracePipeline → ktap_event → Option Tvalue

/-- `event_ftbl`. -/
def event_ftbl : List event_field_tbl :=
  [{ name := "annotate".toList, func := fun _ T e => event_annotate T e },
   { name := "name".toList, func := fun _ _ e => event_name e },
   { name := "print_fmt".toList, func := fun _ _ e => event_print_fmt e },
   { name := "sc_nr".toList, func := fun K _ e => event_sc_nr K e },
   { name := "sc_is_enter".toList, func := fun _ _ e => event_sc_is_enter e },
   { name := "sc_arg1".toList, func := fun K _ e => event_sc_arg1 K e },
   { name := "sc_arg2".toList, func := fun K _ e => event_sc_arg2 K e },
   { name := "sc_arg3".toList, func := fun K _ e => event_sc_arg3 K e },
   { name := "sc_arg4".toList, func := fun K _ e => event_sc_arg4 K e },
   { name := "sc_arg5".toList, func := fun K _ e => event_sc_arg5 K e },
   { name := "sc_arg6".toList, func := fun K _ e => event_sc_arg6 K e },
   { name := "regstr".toList, func := fun _ _ e => event_regstr e },
   { name := "allfield".toList, func := fun _ _ e => event_allfield e },
   { name := "field1".toList, func := fun _ _ e => event_field1 e }]

/-- The loop of `ktap_event_get_index` over the table entries from position `i`
on. -/
def ktap_event_get_index_loop : List event_field_tbl → Nat → CStr → Int
  | [], _, _ => -1
  | entry :: rest, i, field =>
    if strcmp entry.name field == 0 then EVENT_FIELD_BASE + i
    else ktap_event_get_index_loop rest (i + 1) field

/-- `ktap_event_get_index(field)`. -/
def ktap_event_get_index (field : CStr) : Int := ktap_event_get_index_loop event_ftbl 0 field

/-- `ktap_event_get_ts(ks, index)`; `none` outside the table. -/
def ktap_event_get_ts (index : Int) : Option Tvalue :=
  if index < EVENT_FIELD_BASE then none
  else (event_ftbl.get? (index - EVENT_FIELD_BASE).toNat).map (fun t => Tvalue.string t.name)

/-- `ktap_event_handle(ks, e, index, ra)`: the value `ra` holds afterwards. Below
the base nothing is stored; past the end of the table the read is out of
bounds. -/
def ktap_event_handle (K : Kernel) (T : TracePipeline) (e : ktap_event) (index : Int)
    (ra : Tvalue) : Option Tvalue :=
  if index < EVENT_FIELD_BASE then some ra
  else
    match event_ftbl.get? (index - EVENT_FIELD_BASE).toNat with
    | some entry => entry.func K T e
    | none => none

/-! ## Further vocabulary -/

/-- The thread `ktap_call_probe_closure` has built when it reaches `ktap_call`:
the closure, then the event view if the closure has parameters. -/
def probe_thread (cl : Closure) (e : ktap_event) : ktap_State :=
  { stack := [Tvalue.closure cl] ++ (if cl.numparams != 0 then [Tvalue.event e] else []) }

/-- The counter creations a call log attempts, in order. -/
def creation_attempts (calls : List Effect) : List (perf_event_attr × Nat) :=
  calls.filterMap (fun c => match c with
    | Effect.perf_event_create_kernel_counter attr cpu => some (attr, cpu)
    | _ => none)

/-- The diagnostics of `enable_tracepoint_on_cpu` for the CPUs of `cpus` on which
counter creation fails, in order. -/
def creation_diagnostics (K : Kernel) (attr : perf_event_attr) (call : ftrace_event_call)
    (cpus : List Nat) : List printf_call :=
  cpus.filterMap (fun cpu =>
    match K.perf_event_create_kernel_counter attr cpu with
    | Except.ok _ => none
    | Except.error err =>
      some { fmt := "unable create tracepoint event %s on cpu %d, err: %d\n",
             args := [printf_arg.s call.name, printf_arg.d cpu, printf_arg.d err] })

/-- Counter creation succeeds on `cpu`. -/
def creation_ok (K : Kernel) (attr : perf_event_attr) (cpu : Nat) : Bool :=
  match K.perf_event_create_kernel_counter attr cpu with
  | Except.ok _ => true
  | Except.error _ => false

/-- The `subsystem:name` matching rules applied to a spec text `t`: with a colon,
the part before the first colon filters the subsystem and the part after it
filters the name; without one, `t` is a single token. -/
def spec_rule (t : CStr) (call : ftrace_event_call) : Bool :=
  if ':' ∈ t then
    colon_rule (t.takeWhile (fun c => c != ':')) ((t.dropWhile (fun c => c != ':')).drop 1) call
  else token_rule t call

/-- Whether a call is one of the three teardown calls. -/
def is_teardown : Effect → Bool
  | Effect.unregister_kprobe _ => true
  | Effect.perf_event_disable _ => true
  | Effect.perf_event_release_kernel _ => true
  | _ => false

/-- Whether a call unlinks or frees a record. -/
def is_release : Effect → Bool
  | Effect.list_del _ => true
  | Effect.ktap_free _ => true
  | _ => false

/-! ## Concrete data used by the examples -/

/-- The syscall tracepoint `syscalls:sys_enter_sched_get_priority_max`, whose
name has 32 characters. -/
def call_sched_max : ftrace_event_call :=
  { name := some "sys_enter_sched_get_priority_max".toList,
    class_ := some { system := "syscalls".toList, reg := true, get_fields := none, fields := [] },
    event := { type := 146 }, print_fmt := none, flags := 0 }

/-- The tracepoint `sched:sched_switch`. -/
def call_sched_switch : ftrace_event_call :=
  { name := some "sched_switch".toList,
    class_ := some { system := "sched".toList, reg := true, get_fields := none, fields := [] },
    event := { type := 270 }, print_fmt := none, flags := 0 }

/-- The tracepoint `syscalls:sys_enter_read`. -/
def call_sys_enter_read : ftrace_event_call :=
  { name := some "sys_enter_read".toList,
    class_ := some { system := "syscalls".toList, reg := true, get_fields := none, fields := [] },
    event := { type := 600 }, print_fmt := none, flags := 0 }

/-- The tracepoint `syscalls:sys_exit_read`. -/
def call_sys_exit_read : ftrace_event_call :=
  { name := some "sys_exit_read".toList,
    class_ := some { system := "syscalls".toList, reg := true, get_fields := none, fields := [] },
    event := { type := 599 }, print_fmt := none, flags := 0 }

/-- An entry whose ignore flag (bit 3) is set. -/
def call_ignored : ftrace_event_call :=
  { name := some "function".toList,
    class_ := some { system := "ftrace".toList, reg := true, get_fields := none, fields := [] },
    event := { type := 1 }, print_fmt := none, flags := 8 }

/-- A small catalog. -/
def catalog0 : List ftrace_event_call :=
  [call_sched_switch, call_ignored, call_sys_enter_read, call_sys_exit_read]

/-- A kernel with two CPUs on which every registration succeeds. -/
def kernel0 : Kernel :=
  { TRACE_EVENT_FL_IGNORE_ENABLE := 8, ENTRY_HEADSIZE := 8, sizeof_long := 8,
    possible_cpus := [0, 1],
    register_kprobe := fun _ => 0,
    perf_event_create_kernel_counter := fun attr cpu =>
      Except.ok { attr := attr, cpu := cpu,
                  tp_event := catalog0.find? (fun c => c.event.type == attr.config) } }

/-- A closure with one parameter that does nothing observable. -/
def closure0 : Closure := { numparams := 1, body := [] }

/-- A fresh session: empty registry, controlling thread group 1, nothing in
dispatch. -/
def world0 : World :=
  { probe_events_head := [], task := { pid := 1, signal := 1 },
    ktap_in_tracing := fun _ => false, irqs_disabled := fun _ => false,
    output := [], calls := [] }

/-- A record whose closure, when run, makes its own probe location execute
again and makes a counter overflow. -/
def record_refiring : ktap_probe_event :=
  { type := EVENT_TYPE_KPROBE, u := probe_union.p { symbol_name := "do_fork".toList },
    cl := { numparams := 1,
            body := [Action.kprobe_hit 0 none,
                     Action.perf_overflow 1 { raw := some { size := 0, data := [] } } none] },
    destructor := Destructor.kprobe_destructor }

/-- A counter record for `sys_enter_read` on CPU 0 with the same re-firing
closure. -/
def record_counter : ktap_probe_event :=
  { type := EVENT_TYPE_SYSCALL_ENTER,
    u := probe_union.perf { attr := tracepoint_attr call_sys_enter_read, cpu := 0,
                            tp_event := some call_sys_enter_read },
    cl := record_refiring.cl, destructor := Destructor.perf_destructor }

/-- A session holding the two re-firing records. -/
def world_refiring : World := { world0 with probe_events_head := [record_refiring, record_counter] }

/-- The same session while CPU 0 is in dispatch. -/
def world_in_dispatch : World := { world_refiring with ktap_in_tracing := fun cpu => cpu == 0 }

/-- A task outside the controlling thread group of `world0`. -/
def task_other : task_struct := { pid := 77, signal := 77 }

/-- A task inside the controlling thread group of `world0`. -/
def task_own : task_struct := { pid := 5, signal := 1 }


/-- An entry with a 4-byte field declared before an 8-byte field; its name and
subsystem are those of `sys_enter_read`. -/
def call_two_fields : ftrace_event_call :=
  { call_sys_enter_read with
    class_ := some
      { system := "syscalls".toList, reg := true, get_fields := none,
        fields := [{ name := "nr".toList, type := "int".toList, offset := 8, size := 4,
                     is_signed := 1 },
                   { name := "fd".toList, type := "unsigned long".toList, offset := 16, size := 8,
                     is_signed := 0 }] } }

/-- The same two fields in the other list order. -/
def call_two_fields_swapped : ftrace_event_call :=
  { call_sys_enter_read with
    class_ := some
      { system := "syscalls".toList, reg := true, get_fields := none,
        fields := [{ name := "fd".toList, type := "unsigned long".toList, offset := 16, size := 8,
                     is_signed := 0 },
                   { name := "nr".toList, type := "int".toList, offset := 8, size := 4,
                     is_signed := 1 }] } }

/-- A 24-byte payload: `nr` is 3 and the first argument is 5. -/
def payload0 : List Nat := [0, 0, 0, 0, 0, 0, 0, 0, 3, 0, 0, 0, 0, 0, 0, 0, 5, 0, 0, 0, 0, 0, 0, 0]

/-- The raw record of `sample0`. -/
def raw0 : perf_raw_record := { size := 24, data := payload0 }

/-- A raw sample carrying `payload0`. -/
def sample0 : perf_sample_data := { raw := some raw0 }

/-- The counter `kernel0` creates for `sys_enter_read` on `cpu`. -/
def perf_event_read (cpu : Nat) : perf_event :=
  { attr := tracepoint_attr call_sys_enter_read, cpu := cpu,
    tp_event := some call_sys_enter_read }

/-- The record `enable_tracepoint` creates for `sys_enter_read` on `cpu` under
`kernel0`, owning `closure0`. -/
def record_enter (cpu : Nat) : ktap_probe_event :=
  { type := EVENT_TYPE_SYSCALL_ENTER, u := probe_union.perf (perf_event_read cpu),
    cl := closure0, destructor := Destructor.perf_destructor }

/-- An event view over `payload0` for the descriptor `call`. -/
def event_view0 (call : ftrace_event_call) : ktap_event :=
  { call := some call, entry := some payload0, entry_size := 24, regs := none,
    type := EVENT_TYPE_SYSCALL_ENTER }


/-- A kernel with four CPUs on which counter creation fails on CPU 2 (with
`-EINVAL`) and hook registration is rejected (with `-ENOENT`). -/
def kernel4 : Kernel :=
  { TRACE_EVENT_FL_IGNORE_ENABLE := 8, ENTRY_HEADSIZE := 8, sizeof_long := 8,
    possible_cpus := [0, 1, 2, 3],
    register_kprobe := fun _ => -2,
    perf_event_create_kernel_counter := fun attr cpu =>
      if cpu = 2 then Except.error (-22)
      else Except.ok { attr := attr, cpu := cpu, tp_event := some call_sys_enter_read } }

/-- A trace pipeline that prints the event name. -/
def pipeline0 : TracePipeline :=
  { PAGE_SIZE := 4096, TRACE_TYPE_NO_CONSUME := 3,
    trace := fun call _ => (1, call.name.getD []) }

/-- The event view `pre_handler_kprobe` builds for `record_refiring`. -/
def kprobe_view0 : ktap_event := kprobe_event_view record_refiring none

/-- An entry whose name is the first 31 characters of
`sys_enter_sched_get_priority_max`. -/
def call_cut_name : ftrace_event_call :=
  { call_sched_max with name := some ("sys_enter_sched_get_priority_max".toList.take 31) }

/-! # Theorems -/

/-! ## C strings -/

theorem strcmp_eq_zero_iff (a b : CStr) : strcmp a b = 0 ↔ a = b := by
  induction a generalizing b with
  | nil => cases b <;> simp [strcmp]
  | cons x xs ih =>
    cases b with
    | nil => simp [strcmp]
    | cons y ys =>
      simp only [strcmp]
      split
      · simp [*]
      · split <;> simp [*]

theorem strcmp_eq_zero_iff_symm (a b : CStr) : strcmp a b = 0 ↔ b = a := by
  rw [strcmp_eq_zero_iff]; exact eq_comm

theorem strncmp_eq_zero_iff (a b : CStr) (n : Nat) :
    strncmp a b n = 0 ↔ a.take n = b.take n := by
  induction n generalizing a b with
  | zero => simp [strncmp]
  | succ n ih =>
    cases a with
    | nil => cases b <;> simp [strncmp]
    | cons x xs =>
      cases b with
      | nil => simp [strncmp]
      | cons y ys =>
        simp only [strncmp]
        split
        · simp [*]
        · split <;> simp [*]

theorem strsep_token_append (l r : CStr) (d : Char) (h : d ∉ l) :
    strsep_token (l ++ d :: r) d = l := by
  induction l with
  | nil => simp [strsep_token]
  | cons x xs ih =>
    simp only [List.mem_cons, not_or] at h
    have hx : x ≠ d := fun e => h.1 e.symm
    simp [strsep_token, hx, ih h.2]

theorem strsep_rest_append (l r : CStr) (d : Char) (h : d ∉ l) :
    strsep_rest (l ++ d :: r) d = some r := by
  induction l with
  | nil => simp [strsep_rest]
  | cons x xs ih =>
    simp only [List.mem_cons, not_or] at h
    have hx : x ≠ d := fun e => h.1 e.symm
    simp [strsep_rest, hx, ih h.2]

theorem strsep_token_of_not_mem (s : CStr) (d : Char) (h : d ∉ s) : strsep_token s d = s := by
  induction s with
  | nil => rfl
  | cons x xs ih =>
    simp only [List.mem_cons, not_or] at h
    have hx : x ≠ d := fun e => h.1 e.symm
    simp [strsep_token, hx, ih h.2]

theorem strsep_rest_of_not_mem (s : CStr) (d : Char) (h : d ∉ s) : strsep_rest s d = none := by
  induction s with
  | nil => rfl
  | cons x xs ih =>
    simp only [List.mem_cons, not_or] at h
    have hx : x ≠ d := fun e => h.1 e.symm
    simp [strsep_rest, hx, ih h.2]

/-! ## The matcher -/

theorem foldl_select {σ α : Type} (p : α → Bool) (f : α → σ → σ) (l : List α) (init : σ) :
    l.foldl (fun st x => if p x then f x st else st) init
      = (l.filter p).foldl (fun st x => f x st) init := by
  induction l generalizing init with
  | nil => rfl
  | cons x xs ih =>
    by_cases h : p x = true
    · simp [List.filter_cons, h, ih]
    · simp [List.filter_cons, h, ih]

theorem parse_colon (l r : CStr) (hl : ':' ∉ l) (hlen : (l ++ ':' :: r).length ≤ 31) :
    parse_event_spec (some (l ++ ':' :: r))
      = { match_ := none,
          sub := if l = [] ∨ l = ['*'] then none else some l,
          event := if r = [] ∨ r = ['*'] then none else some r } := by
  have ht : List.take 31 (l ++ ':' :: r) = l ++ ':' :: r := List.take_of_length_le hlen
  simp only [parse_event_spec, Option.map_some', strncpy, ht, strsep, strsep_rest_append l r ':' hl,
    strsep_token_append l r ':' hl, strlen]
  simp [strcmp_eq_zero_iff, List.length_eq_zero]

theorem parse_token (t : CStr) (ht : ':' ∉ t) (hlen : t.length ≤ 31) :
    parse_event_spec (some t) = { match_ := some t, sub := none, event := none } := by
  have h31 : List.take 31 t = t := List.take_of_length_le hlen
  simp [parse_event_spec, strncpy, h31, strsep, strsep_rest_of_not_mem t ':' ht,
    strsep_token_of_not_mem t ':' ht]

theorem parse_null : parse_event_spec none = { match_ := none, sub := none, event := none } := rfl

theorem selected_colon (ie : Nat) (l r : CStr) (c : ftrace_event_call) :
    event_call_selected ie
      { match_ := none,
        sub := if l = [] ∨ l = ['*'] then none else some l,
        event := if r = [] ∨ r = ['*'] then none else some r } c
      = (eligible ie c && colon_rule l r c) := by
  rcases c with ⟨name, cls, ev, pf, fl⟩
  cases name <;> cases cls <;> simp [event_call_selected, eligible, colon_rule, has_name, has_system]
  rename_i nm cl
  rw [Bool.eq_iff_iff]
  by_cases h3 : l = [] ∨ l = ['*'] <;> by_cases h4 : r = [] ∨ r = ['*']
  · rw [if_pos h3, if_pos h4]
    rcases h3 with h3 | h3 <;> rcases h4 with h4 | h4 <;> simp [h3, h4]
  · rw [if_pos h3, if_neg h4]
    simp only [not_or] at h4
    rcases h3 with h3 | h3 <;> simp [h3, h4, strcmp_eq_zero_iff_symm, and_assoc]
  · rw [if_neg h3, if_pos h4]
    simp only [not_or] at h3
    rcases h4 with h4 | h4 <;> simp [h3, h4, strcmp_eq_zero_iff_symm, and_assoc]
  · rw [if_neg h3, if_neg h4]
    simp only [not_or] at h3 h4
    simp [h3, h4, strcmp_eq_zero_iff_symm]
    tauto

theorem selected_token (ie : Nat) (t : CStr) (c : ftrace_event_call) :
    event_call_selected ie { match_ := some t, sub := none, event := none } c
      = (eligible ie c && token_rule t c) := by
  rcases c with ⟨name, cls, ev, pf, fl⟩
  cases name <;> cases cls <;> simp [event_call_selected, eligible, token_rule, has_name, has_system]
  rename_i nm cl
  rw [Bool.eq_iff_iff]
  simp [strcmp_eq_zero_iff_symm]
  tauto

theorem selected_null (ie : Nat) (c : ftrace_event_call) :
    event_call_selected ie { match_ := none, sub := none, event := none } c = eligible ie c := by
  rcases c with ⟨name, cls, ev, pf, fl⟩
  cases name <;> cases cls <;> simp [event_call_selected, eligible]
  rw [Bool.eq_iff_iff]; simp

theorem on_event_call_colon {σ : Type} (ie : Nat) (cat : List ftrace_event_call)
    (actor : ftrace_event_call → σ → σ) (data : σ) (l r : CStr) (hl : ':' ∉ l)
    (hlen : (l ++ ':' :: r).length ≤ 31) :
    ftrace_on_event_call ie cat (some (l ++ ':' :: r)) actor data
      = (cat.filter (fun c => eligible ie c && colon_rule l r c)).foldl
          (fun st c => actor c st) data := by
  simp only [ftrace_on_event_call, parse_colon l r hl hlen, selected_colon]
  exact foldl_select _ actor cat data

theorem on_event_call_token {σ : Type} (ie : Nat) (cat : List ftrace_event_call)
    (actor : ftrace_event_call → σ → σ) (data : σ) (t : CStr) (ht : ':' ∉ t)
    (hlen : t.length ≤ 31) :
    ftrace_on_event_call ie cat (some t) actor data
      = (cat.filter (fun c => eligible ie c && token_rule t c)).foldl
          (fun st c => actor c st) data := by
  simp only [ftrace_on_event_call, parse_token t ht hlen, selected_token]
  exact foldl_select _ actor cat data

theorem on_event_call_null {σ : Type} (ie : Nat) (cat : List ftrace_event_call)
    (actor : ftrace_event_call → σ → σ) (data : σ) :
    ftrace_on_event_call ie cat none actor data
      = (cat.filter (eligible ie)).foldl (fun st c => actor c st) data := by
  simp only [ftrace_on_event_call, parse_null, selected_null]
  exact foldl_select _ actor cat data

theorem strncmp_literal (s p : CStr) : (strncmp s p p.length == 0) = decide (p <+: s) := by
  rw [Bool.eq_iff_iff]
  simp only [beq_iff_eq, decide_eq_true_eq, strncmp_eq_zero_iff, List.take_length]
  rw [List.prefix_iff_eq_take]
  exact eq_comm


/-! ## Claims about the matcher and the dispatcher -/

theorem enable_tracepoint_fold_some (K : Kernel) (arg : ktap_trace_arg)
    (l : List ftrace_event_call) (h : ∀ c ∈ l, c.name ≠ none) (w : World) :
    ∃ w1, l.foldl (fun st c => enable_tracepoint_actor K arg c st) (some w) = some w1 := by
  induction l generalizing w with
  | nil => exact ⟨w, rfl⟩
  | cons c cs ih =>
    have hc : c.name ≠ none := h c (List.mem_cons_self _ _)
    obtain ⟨nm, hnm⟩ := Option.ne_none_iff_exists'.mp hc
    simp only [List.foldl_cons, enable_tracepoint_actor, Option.some_bind, enable_tracepoint, hnm]
    exact ih (fun c hc => h c (List.mem_cons_of_mem _ hc)) _

theorem eligible_name (ie : Nat) (c : ftrace_event_call) (h : eligible ie c = true) :
    c.name ≠ none := by
  rcases c with ⟨name, cls, ev, pf, fl⟩
  cases name <;> simp_all [eligible]

theorem start_tracepoint_cons (K : Kernel) (cat : List ftrace_event_call) (w : World)
    (c : Char) (cs : CStr) (cl : Closure) :
    start_tracepoint K cat w (c :: cs) cl
      = (ftrace_on_event_call K.TRACE_EVENT_FL_IGNORE_ENABLE cat (some (c :: cs))
          (enable_tracepoint_actor K { cl := cl }) (some w)).map (fun w1 => (0, w1)) := by
  simp [start_tracepoint]

/-- C3 (amended): for every catalog, the bare spec `*` selects exactly the
eligible entries whose name or whose subsystem is literally `*` (it is a
single token, not a wildcard), in `ftrace_on_event_call` and as reached through
`start_tracepoint`; the spec that selects all eligible entries is `*:*`. -/
theorem ftrace_on_event_call_star_spec {σ : Type} (K : Kernel) (cat : List ftrace_event_call)
    (actor : ftrace_event_call → σ → σ) (data : σ) (w : World) (cl : Closure) :
    ftrace_on_event_call K.TRACE_EVENT_FL_IGNORE_ENABLE cat (some ['*']) actor data
        = (cat.filter (fun c => eligible K.TRACE_EVENT_FL_IGNORE_ENABLE c &&
            (has_name c ['*'] || has_system c ['*']))).foldl (fun st c => actor c st) data ∧
    ftrace_on_event_call K.TRACE_EVENT_FL_IGNORE_ENABLE cat (some ['*', ':', '*']) actor data
        = (cat.filter (eligible K.TRACE_EVENT_FL_IGNORE_ENABLE)).foldl
            (fun st c => actor c st) data ∧
    start_tracepoint K cat w ['*'] cl
        = ((cat.filter (fun c => eligible K.TRACE_EVENT_FL_IGNORE_ENABLE c &&
            (has_name c ['*'] || has_system c ['*']))).foldl
            (fun st c => enable_tracepoint_actor K { cl := cl } c st) (some w)).map
            (fun w1 => (0, w1)) ∧
    start_tracepoint K cat w ['*', ':', '*'] cl
        = ((cat.filter (eligible K.TRACE_EVENT_FL_IGNORE_ENABLE)).foldl
            (fun st c => enable_tracepoint_actor K { cl := cl } c st) (some w)).map
            (fun w1 => (0, w1)) := by
  have hstar : ∀ (τ : Type) (a : ftrace_event_call → τ → τ) (d : τ),
      ftrace_on_event_call K.TRACE_EVENT_FL_IGNORE_ENABLE cat (some ['*', ':', '*']) a d
        = (cat.filter (eligible K.TRACE_EVENT_FL_IGNORE_ENABLE)).foldl (fun st c => a c st) d := by
    intro τ a d
    have h := on_event_call_colon K.TRACE_EVENT_FL_IGNORE_ENABLE cat a d ['*'] ['*']
      (by decide) (by decide)
    simp only [List.cons_append, List.nil_append] at h
    rw [h]
    congr 1
    apply List.filter_congr
    intro c _
    simp [colon_rule]
  refine ⟨on_event_call_token _ cat actor data ['*'] (by decide) (by decide), hstar σ actor data,
    ?_, ?_⟩
  · rw [start_tracepoint_cons, on_event_call_token _ cat _ _ ['*'] (by decide) (by decide)]
    rfl
  · rw [start_tracepoint_cons, hstar]

/-- C3 as stated fails: on `catalog0`, which has three eligible entries, the
spec `*` selects none, and registering `tp:*` arms nothing. -/
theorem ftrace_on_event_call_star_selects_nothing :
    ftrace_on_event_call 8 catalog0 (some ['*']) record_actor [] = [] ∧
    catalog0.filter (eligible 8) = [call_sched_switch, call_sys_enter_read, call_sys_exit_read] ∧
    (start_probe kernel0 catalog0 world0 "tp:*".toList closure0).map
      (fun r => (r.1, r.2.probe_events_head)) = some (0, []) := by
  decide

/-- C4: for every catalog, the empty spec passed to `start_tracepoint` selects
all eligible entries: the result is that of running `enable_tracepoint` once,
in catalog order, on every eligible entry (name, class and registration callback
present, ignore flag clear) and on no other entry; the call returns 0, and
registering `tp:` or `tracepoint:` through `start_probe` is this very call. -/
theorem start_tracepoint_empty_spec (K : Kernel) (cat : List ftrace_event_call) (w : World)
    (cl : Closure) :
    start_tracepoint K cat w [] cl
        = ((cat.filter (eligible K.TRACE_EVENT_FL_IGNORE_ENABLE)).foldl
            (fun st c => enable_tracepoint_actor K { cl := cl } c st) (some w)).map
            (fun w1 => (0, w1)) ∧
    (∃ w1, start_tracepoint K cat w [] cl = some (0, w1)) ∧
    start_probe K cat w "tp:".toList cl = start_tracepoint K cat w [] cl ∧
    start_probe K cat w "tracepoint:".toList cl = start_tracepoint K cat w [] cl := by
  have h : start_tracepoint K cat w [] cl
        = ((cat.filter (eligible K.TRACE_EVENT_FL_IGNORE_ENABLE)).foldl
            (fun st c => enable_tracepoint_actor K { cl := cl } c st) (some w)).map
            (fun w1 => (0, w1)) := by
    simp only [start_tracepoint, List.head?_nil, if_true]
    rw [on_event_call_null]
  refine ⟨h, ?_, ?_, ?_⟩
  · obtain ⟨w1, hw1⟩ := enable_tracepoint_fold_some K { cl := cl }
      (cat.filter (eligible K.TRACE_EVENT_FL_IGNORE_ENABLE))
      (fun c hc => eligible_name _ c (List.mem_filter.mp hc).2) w
    exact ⟨w1, by rw [h, hw1]; rfl⟩
  · simp [start_probe, strncmp]
  · simp [start_probe, strncmp]

/-- C5: `start_probe` is the reference dispatcher. A string that starts with
`kprobe:` or `kprobes:` gives the result of `start_kprobe` on the text after the
prefix, one that starts with `tracepoint:` or `tp:` gives the result of
`start_tracepoint` on the text after the prefix, and any other string gives -1,
one added diagnostic that names the string, and an unchanged registry. -/
theorem start_probe_dispatch (K : Kernel) (cat : List ftrace_event_call) (w : World)
    (s : CStr) (cl : Closure) :
    start_probe K cat w s cl = start_probe_reference K cat w s cl ∧
    (∀ rest, s = "kprobe:".toList ++ rest →
      start_probe K cat w s cl = some (start_kprobe K w rest cl)) ∧
    (∀ rest, s = "kprobes:".toList ++ rest →
      start_probe K cat w s cl = some (start_kprobe K w rest cl)) ∧
    (∀ rest, s = "tracepoint:".toList ++ rest →
      start_probe K cat w s cl = start_tracepoint K cat w rest cl) ∧
    (∀ rest, s = "tp:".toList ++ rest →
      start_probe K cat w s cl = start_tracepoint K cat w rest cl) ∧
    (¬ "kprobe:".toList <+: s → ¬ "kprobes:".toList <+: s → ¬ "tracepoint:".toList <+: s →
      ¬ "tp:".toList <+: s →
      ∃ w1, start_probe K cat w s cl = some (-1, w1) ∧
        w1.output = w.output ++
          [{ fmt := "unknown probe event name: %s\n", args := [printf_arg.s (some s)] }] ∧
        w1.probe_events_head = w.probe_events_head ∧ w1.calls = w.calls) := by
  have h7 : (strncmp s "kprobe:".toList 7 == 0) = decide ("kprobe:".toList <+: s) :=
    strncmp_literal s _
  have h8 : (strncmp s "kprobes:".toList 8 == 0) = decide ("kprobes:".toList <+: s) :=
    strncmp_literal s _
  have h11 : (strncmp s "tracepoint:".toList 11 == 0) = decide ("tracepoint:".toList <+: s) :=
    strncmp_literal s _
  have h3 : (strncmp s "tp:".toList 3 == 0) = decide ("tp:".toList <+: s) :=
    strncmp_literal s _
  have href : start_probe K cat w s cl = start_probe_reference K cat w s cl := by
    simp only [start_probe, start_probe_reference, h7, h8, h11, h3, decide_eq_true_eq]
    rfl
  refine ⟨href, ?_, ?_, ?_, ?_, ?_⟩
  · rintro rest rfl
    rw [href]
    simp [start_probe_reference]
  · rintro rest rfl
    rw [href]
    simp [start_probe_reference]
  · rintro rest rfl
    rw [href]
    simp [start_probe_reference]
  · rintro rest rfl
    rw [href]
    simp [start_probe_reference]
  · intro n1 n2 n3 n4
    refine ⟨ktap_printf w "unknown probe event name: %s\n" [printf_arg.s (some s)], ?_, rfl, rfl,
      rfl⟩
    rw [href]
    simp only [start_probe_reference, n1, n2, n3, n4, if_false]
    rfl

/-- C5 at `kprobes:do_fork`, at `tp:sched:*`, and at `uprobe:main`, which has
none of the four prefixes. -/
theorem start_probe_dispatch_witness :
    start_probe kernel0 catalog0 world0 "uprobe:main".toList closure0
        = start_probe_reference kernel0 catalog0 world0 "uprobe:main".toList closure0 ∧
    start_probe kernel0 catalog0 world0 "kprobes:do_fork".toList closure0
        = some (start_kprobe kernel0 world0 "do_fork".toList closure0) ∧
    start_probe kernel0 catalog0 world0 "tp:sched:*".toList closure0
        = start_tracepoint kernel0 catalog0 world0 "sched:*".toList closure0 ∧
    ¬ "kprobe:".toList <+: "uprobe:main".toList ∧
    ∃ w1, start_probe kernel0 catalog0 world0 "uprobe:main".toList closure0 = some (-1, w1) ∧
      w1.output = world0.output ++
        [{ fmt := "unknown probe event name: %s\n",
           args := [printf_arg.s (some "uprobe:main".toList)] }] ∧
      w1.probe_events_head = world0.probe_events_head ∧ w1.calls = world0.calls :=
  ⟨(start_probe_dispatch kernel0 catalog0 world0 "uprobe:main".toList closure0).1,
    (start_probe_dispatch kernel0 catalog0 world0 "kprobes:do_fork".toList closure0).2.2.1 _ rfl,
    (start_probe_dispatch kernel0 catalog0 world0 "tp:sched:*".toList closure0).2.2.2.2.1 _ rfl,
    by decide,
    (start_probe_dispatch kernel0 catalog0 world0 "uprobe:main".toList closure0).2.2.2.2.2
      (by decide) (by decide) (by decide) (by decide)⟩

/-! ## Dispatch -/

theorem update_restore (f : Nat → Bool) (cpu : Nat) (b v : Bool) (h : f cpu = v) :
    Function.update (Function.update f cpu b) cpu v = f := by
  subst h; simp

theorem run_actions_fixed (fire : Action → World → Option World) (w : World)
    (h : ∀ a, fire a w = some w) (l : List Action) : run_actions fire l w = some w := by
  induction l with
  | nil => rfl
  | cons a rest ih => simp [run_actions, h a, ih]

theorem fire_hook_in_tracing (cpu : Nat) (current : task_struct) (n : Nat) (a : Action)
    (w : World) (h : w.ktap_in_tracing cpu = true) :
    fire_hook cpu current (n + 1) a w = some w := by
  cases a with
  | kprobe_hit i regs =>
    simp only [fire_hook]
    cases w.probe_events_head.get? i with
    | none => rfl
    | some r => simp [pre_handler_kprobe, h]
  | perf_overflow i data regs =>
    simp only [fire_hook]
    cases w.probe_events_head.get? i with
    | none => rfl
    | some r =>
      cases hu : r.u with
      | zero => simp [hu]
      | p k => simp [hu]
      | perf event => simp [hu, ktap_overflow_callback, h]

theorem ktap_call_probe_closure_in_tracing (fire : Action → World → Option World) (cpu : Nat)
    (hfire : ∀ a w, w.ktap_in_tracing cpu = true → fire a w = some w)
    (cl : Closure) (e : ktap_event) (w : World) (h : w.ktap_in_tracing cpu = true) :
    ktap_call_probe_closure fire cl e w
      = some { w with calls := w.calls ++ closure_call_log cl e } := by
  have hrun : ∀ w1 : World, w1.ktap_in_tracing cpu = true →
      run_actions fire cl.body w1 = some w1 :=
    fun w1 h1 => run_actions_fixed fire w1 (fun a => hfire a w1 h1) cl.body
  by_cases hp : cl.numparams = 0
  · simp only [ktap_call_probe_closure, ktap_newthread, ktap_call, ktap_exitthread, log_call, hp,
      closure_call_log]
    simp only [List.length_nil, List.nil_append, bne_self_eq_false, Bool.false_eq_true, if_false,
      List.get?_cons_zero, List.drop_succ_cons, List.drop_zero, zero_add]
    rw [hrun]
    · simp
    · exact h
  · simp only [ktap_call_probe_closure, ktap_newthread, ktap_call, ktap_exitthread, log_call,
      closure_call_log]
    have hb : (cl.numparams != 0) = true := by simpa using hp
    simp only [List.length_nil, List.nil_append, hb, if_true, List.cons_append,
      List.get?_cons_zero, List.drop_succ_cons, List.drop_zero, zero_add]
    rw [hrun]
    · simp
    · exact h

theorem closure_calls_append (a b : List Effect) :
    closure_calls (a ++ b) = closure_calls a + closure_calls b := by
  simp [closure_calls]

theorem closure_calls_log (cl : Closure) (e : ktap_event) :
    closure_calls (closure_call_log cl e) = 1 := by
  simp [closure_calls, closure_call_log, List.countP_cons]

theorem pre_handler_kprobe_dispatch (fire : Action → World → Option World) (cpu : Nat)
    (hfire : ∀ a w, w.ktap_in_tracing cpu = true → fire a w = some w)
    (current : task_struct) (r : ktap_probe_event) (regs : Option pt_regs) (w : World)
    (hflag : w.ktap_in_tracing cpu = false) (hgrp : same_thread_group current w.task = false) :
    pre_handler_kprobe fire cpu current r regs w
      = some (0, { w with calls := w.calls ++ closure_call_log r.cl (kprobe_event_view r regs) }) := by
  have hcl := ktap_call_probe_closure_in_tracing fire cpu hfire r.cl (kprobe_event_view r regs)
    { w with ktap_in_tracing := Function.update w.ktap_in_tracing cpu true } (by simp)
  simp only [pre_handler_kprobe, hflag, hgrp, kprobe_event_view] at hcl ⊢
  simp [hcl, update_restore _ _ _ _ hflag]

theorem ktap_overflow_callback_dispatch (fire : Action → World → Option World) (cpu : Nat)
    (hfire : ∀ a w, w.ktap_in_tracing cpu = true → fire a w = some w)
    (current : task_struct) (event : perf_event) (r : ktap_probe_event)
    (data : perf_sample_data) (raw : perf_raw_record) (hraw : data.raw = some raw)
    (regs : Option pt_regs) (w : World)
    (hflag : w.ktap_in_tracing cpu = false) (hgrp : same_thread_group current w.task = false) :
    ktap_overflow_callback fire cpu current event r data regs w
      = some { w with calls := w.calls ++
          closure_call_log r.cl (overflow_event_view event r raw regs) } := by
  have hcl := ktap_call_probe_closure_in_tracing fire cpu hfire r.cl
    (overflow_event_view event r raw regs)
    { w with ktap_in_tracing := Function.update w.ktap_in_tracing cpu true,
             irqs_disabled := Function.update w.irqs_disabled cpu true } (by simp)
  simp only [ktap_overflow_callback, hflag, hgrp, hraw, overflow_event_view] at hcl ⊢
  simp [hcl, update_restore _ _ _ _ hflag]


/-! ## Counter registration -/

theorem enable_tracepoint_on_cpu_registry (K : Kernel) (cpu : Nat) (attr : perf_event_attr)
    (call : ftrace_event_call) (arg : ktap_trace_arg) (type : Nat) (w : World) :
    (enable_tracepoint_on_cpu K cpu attr call arg type w).probe_events_head
      = w.probe_events_head ++ armed_records K attr arg type [cpu] := by
  simp only [enable_tracepoint_on_cpu, armed_records, List.filterMap_cons, List.filterMap_nil]
  cases K.perf_event_create_kernel_counter attr cpu <;>
    simp [log_call, ktap_printf, counter_record]

theorem armed_records_cons (K : Kernel) (attr : perf_event_attr) (arg : ktap_trace_arg)
    (type : Nat) (cpu : Nat) (cpus : List Nat) :
    armed_records K attr arg type (cpu :: cpus)
      = armed_records K attr arg type [cpu] ++ armed_records K attr arg type cpus := by
  simp only [armed_records, List.filterMap_cons, List.filterMap_nil]
  cases K.perf_event_create_kernel_counter attr cpu <;> simp

theorem enable_on_cpus_registry (K : Kernel) (attr : perf_event_attr)
    (call : ftrace_event_call) (arg : ktap_trace_arg) (type : Nat) (cpus : List Nat) (w : World) :
    (cpus.foldl (fun st cpu => enable_tracepoint_on_cpu K cpu attr call arg type st)
        w).probe_events_head
      = w.probe_events_head ++ armed_records K attr arg type cpus := by
  induction cpus generalizing w with
  | nil => simp [armed_records]
  | cons cpu rest ih =>
    rw [List.foldl_cons, ih, enable_tracepoint_on_cpu_registry, armed_records_cons K attr arg type cpu rest,
      List.append_assoc]

/-- The registry `enable_tracepoint` leaves for a named entry. -/
theorem enable_tracepoint_registry (K : Kernel) (arg : ktap_trace_arg) (call : ftrace_event_call)
    (name : CStr) (hname : call.name = some name) (w : World) :
    ∃ w1, enable_tracepoint K arg call w = some w1 ∧
      w1.probe_events_head = w.probe_events_head ++
        armed_records K (tracepoint_attr call) arg (event_type_of_name name) K.possible_cpus := by
  refine ⟨_, by simp only [enable_tracepoint, hname]; rfl, ?_⟩
  rw [enable_on_cpus_registry]
  rfl

theorem armed_records_type (K : Kernel) (attr : perf_event_attr) (arg : ktap_trace_arg)
    (type : Nat) (cpus : List Nat) (r : ktap_probe_event)
    (h : r ∈ armed_records K attr arg type cpus) :
    r.type = type ∧ r.cl = arg.cl ∧ r.destructor = Destructor.perf_destructor := by
  simp only [armed_records, List.mem_filterMap] at h
  obtain ⟨cpu, _, hcpu⟩ := h
  cases hk : K.perf_event_create_kernel_counter attr cpu with
  | error err => simp [hk] at hcpu
  | ok event =>
    simp only [hk, Option.some.injEq] at hcpu
    subst hcpu
    exact ⟨rfl, rfl, rfl⟩

theorem event_field_loop_nonpos (entry : Option (List Nat)) (l : List ftrace_event_field)
    (index : Int) (h : index ≤ 0) : event_field_loop entry l index = some Tvalue.nil := by
  induction l generalizing index with
  | nil => rfl
  | cons f rest ih =>
    have h1 : index - 1 ≠ 0 := by omega
    simp only [event_field_loop, h1, false_and, if_false]
    exact ih (index - 1) (by omega)


/-! ## Teardown -/

theorem call_destructor_eq (r : ktap_probe_event) (w : World) :
    call_destructor r w = { w with calls := w.calls ++ teardown_log r } := by
  cases hd : r.destructor <;>
    simp [call_destructor, hd, teardown_log, kprobe_destructor, perf_destructor, log_call]

theorem foldl_call_destructor (l : List ktap_probe_event) (w : World) :
    l.foldl (fun st r => call_destructor r st) w
      = { w with calls := w.calls ++ (l.map teardown_log).flatten } := by
  induction l generalizing w with
  | nil => simp
  | cons r rest ih =>
    rw [List.foldl_cons, ih, call_destructor_eq]
    simp [List.append_assoc]

theorem end_probes_free_eq (l : List ktap_probe_event) (w : World) :
    end_probes_free l w
      = { w with probe_events_head := w.probe_events_head.drop l.length,
                 calls := w.calls ++ (l.map release_log).flatten } := by
  induction l generalizing w with
  | nil => simp [end_probes_free]
  | cons r rest ih =>
    rw [end_probes_free, ih]
    simp only [log_call, list_del, List.map_cons, List.flatten_cons, List.length_cons,
      List.append_assoc]
    cases hw : w.probe_events_head <;> simp [release_log]

/-- The state `end_probes` leaves. -/
theorem end_probes_eq (w : World) :
    end_probes w
      = { w with probe_events_head := [],
                 calls := w.calls ++ (w.probe_events_head.map teardown_log).flatten
                   ++ [Effect.tracepoint_synchronize_unregister]
                   ++ (w.probe_events_head.map release_log).flatten } := by
  simp [end_probes, foldl_call_destructor, end_probes_free_eq, log_call]

theorem freed_append (a b : List Effect) : freed (a ++ b) = freed a ++ freed b := by
  simp [freed]

theorem freed_teardown_log (r : ktap_probe_event) : freed (teardown_log r) = [] := by
  cases hd : r.destructor <;> simp [teardown_log, hd, freed]

theorem freed_teardown (l : List ktap_probe_event) : freed (l.map teardown_log).flatten = [] := by
  induction l with
  | nil => rfl
  | cons r rest ih =>
    rw [List.map_cons, List.flatten_cons, freed_append, ih, freed_teardown_log]
    rfl

theorem freed_release (l : List ktap_probe_event) : freed (l.map release_log).flatten = l := by
  induction l with
  | nil => rfl
  | cons r rest ih =>
    rw [List.map_cons, List.flatten_cons, freed_append, ih]
    rfl

theorem teardown_calls_append (a b : List Effect) :
    teardown_calls (a ++ b) = teardown_calls a + teardown_calls b := by
  simp [teardown_calls]

theorem teardown_calls_teardown_log (r : ktap_probe_event) :
    teardown_calls (teardown_log r) = 1 := by
  cases hd : r.destructor <;> simp [teardown_log, hd, teardown_calls, List.countP_cons]

theorem teardown_calls_teardown (l : List ktap_probe_event) :
    teardown_calls (l.map teardown_log).flatten = l.length := by
  induction l with
  | nil => rfl
  | cons r rest ih =>
    rw [List.map_cons, List.flatten_cons, teardown_calls_append, ih, teardown_calls_teardown_log,
      List.length_cons]
    omega

theorem teardown_calls_release (l : List ktap_probe_event) :
    teardown_calls (l.map release_log).flatten = 0 := by
  induction l with
  | nil => rfl
  | cons r rest ih =>
    rw [List.map_cons, List.flatten_cons, teardown_calls_append, ih]
    rfl


/-! ## Claims about dispatch, accessors and teardown -/

/-- C7 (amended): for every event view whose descriptor is present, with field
list `head`, and every raw payload, `field1` looks only at the first field in
reverse list order: it returns the 4-byte integer read at that field's byte
offset when that field's size is exactly 4, and nil otherwise; so it returns
nil if and only if the descriptor has no field or that one field's size is not
4 (fields further along are never read, whatever their size). -/
theorem event_field1_last_field (e : ktap_event) (head : List ftrace_event_field)
    (hf : ktap_get_fields e.call = some head) :
    event_field1 e
      = (match head.reverse with
          | [] => some Tvalue.nil
          | field :: _ =>
            if field.size = 4 then (read_int e.entry field.offset).map Tvalue.number
            else some Tvalue.nil) ∧
    (event_field1 e = some Tvalue.nil ↔
      head.reverse = [] ∨ ∃ field rest, head.reverse = field :: rest ∧ field.size ≠ 4) := by
  have h : event_field1 e
      = (match head.reverse with
          | [] => some Tvalue.nil
          | field :: _ =>
            if field.size = 4 then (read_int e.entry field.offset).map Tvalue.number
            else some Tvalue.nil) := by
    simp only [event_field1, event_field, hf]
    cases head.reverse with
    | nil => rfl
    | cons f rest =>
      by_cases h4 : f.size = 4
      · simp [event_field_loop, h4]
      · simp only [event_field_loop, h4, and_false, if_false]
        exact event_field_loop_nonpos _ _ _ (by omega)
  refine ⟨h, ?_⟩
  rw [h]
  cases head.reverse with
  | nil => simp
  | cons f rest =>
    by_cases h4 : f.size = 4
    · simp only [h4, if_true, reduceCtorEq, false_or, ne_eq, not_true_eq_false, and_false,
        exists_false, iff_false]
      cases read_int e.entry f.offset <;> simp [h4]
    · simp [h4]


/-- C7 at a descriptor whose first field in reverse order is the 4-byte `nr` at
offset 8: `field1` is the payload's 3. -/
theorem event_field1_last_field_witness :
    ktap_get_fields (event_view0 call_two_fields_swapped).call
      = some [{ name := "fd".toList, type := "unsigned long".toList, offset := 16, size := 8,
                is_signed := 0 },
              { name := "nr".toList, type := "int".toList, offset := 8, size := 4,
                is_signed := 1 }] ∧
    event_field1 (event_view0 call_two_fields_swapped) = some (Tvalue.number 3) :=
  ⟨rfl, (event_field1_last_field (event_view0 call_two_fields_swapped) _ rfl).1.trans (by decide)⟩

/-- C7 as stated fails: the descriptor `call_two_fields` has a field of size 4
(`nr` at offset 8, where the payload holds 3), its first field in reverse order
has size 8, and `field1` returns nil. -/
theorem event_field1_skips_later_fields :
    ktap_get_fields (event_view0 call_two_fields).call
      = some [{ name := "nr".toList, type := "int".toList, offset := 8, size := 4,
                is_signed := 1 },
              { name := "fd".toList, type := "unsigned long".toList, offset := 16, size := 8,
                is_signed := 0 }] ∧
    read_int (event_view0 call_two_fields).entry 8 = some 3 ∧
    event_field1 (event_view0 call_two_fields) = some Tvalue.nil := by
  decide

/-- C8: reentrancy guard. If the per-CPU in-dispatch flag is set on entry, both
`pre_handler_kprobe` and `ktap_overflow_callback` return at once and leave the
whole state as it was (no closure invocation, flag untouched); hence any hook
that fires on that CPU while a closure runs is a no-op, and a handler entered
with the flag clear by a task outside the controlling thread group ends with
exactly one more closure invocation in the log, whatever probes its closure
causes to fire meanwhile. -/
theorem reentrancy_guard (cpu : Nat) (current : task_struct) :
    (∀ (fire : Action → World → Option World) (r : ktap_probe_event) (regs : Option pt_regs)
        (w : World), w.ktap_in_tracing cpu = true →
      pre_handler_kprobe fire cpu current r regs w = some (0, w)) ∧
    (∀ (fire : Action → World → Option World) (event : perf_event) (r : ktap_probe_event)
        (data : perf_sample_data) (regs : Option pt_regs) (w : World),
      w.ktap_in_tracing cpu = true →
      ktap_overflow_callback fire cpu current event r data regs w = some w) ∧
    (∀ (n : Nat) (a : Action) (w : World), w.ktap_in_tracing cpu = true →
      fire_hook cpu current (n + 1) a w = some w) ∧
    (∀ (n : Nat) (r : ktap_probe_event) (regs : Option pt_regs) (w : World),
      w.ktap_in_tracing cpu = false → same_thread_group current w.task = false →
      ∃ w1, pre_handler_kprobe (fire_hook cpu current (n + 1)) cpu current r regs w = some (0, w1) ∧
        closure_calls w1.calls = closure_calls w.calls + 1) ∧
    (∀ (n : Nat) (event : perf_event) (r : ktap_probe_event) (data : perf_sample_data)
        (regs : Option pt_regs) (w : World),
      data.raw ≠ none → w.ktap_in_tracing cpu = false →
      same_thread_group current w.task = false →
      ∃ w1, ktap_overflow_callback (fire_hook cpu current (n + 1)) cpu current event r data regs w
          = some w1 ∧
        closure_calls w1.calls = closure_calls w.calls + 1) := by
  refine ⟨?_, ?_, ?_, ?_, ?_⟩
  · intro fire r regs w h
    simp [pre_handler_kprobe, h]
  · intro fire event r data regs w h
    simp [ktap_overflow_callback, h]
  · intro n a w h
    exact fire_hook_in_tracing cpu current n a w h
  · intro n r regs w hflag hgrp
    refine ⟨_, pre_handler_kprobe_dispatch _ cpu
      (fun a w h => fire_hook_in_tracing cpu current n a w h) current r regs w hflag hgrp, ?_⟩
    simp [closure_calls_append, closure_calls_log]
  · intro n event r data regs w hraw hflag hgrp
    obtain ⟨raw, hraw⟩ := Option.ne_none_iff_exists'.mp hraw
    refine ⟨_, ktap_overflow_callback_dispatch _ cpu
      (fun a w h => fire_hook_in_tracing cpu current n a w h) current event r data raw hraw regs w
      hflag hgrp, ?_⟩
    simp [closure_calls_append, closure_calls_log]

/-- C8 on a session whose closures re-fire their own kprobe and a counter. -/
theorem reentrancy_guard_witness :
    (world_in_dispatch.ktap_in_tracing 0 = true ∧
      pre_handler_kprobe (fire_hook 0 task_other 1) 0 task_other record_refiring none
        world_in_dispatch = some (0, world_in_dispatch)) ∧
    (world_refiring.ktap_in_tracing 0 = false ∧
      same_thread_group task_other world_refiring.task = false ∧
      ∃ w1, pre_handler_kprobe (fire_hook 0 task_other 1) 0 task_other record_refiring none
          world_refiring = some (0, w1) ∧
        closure_calls w1.calls = closure_calls world_refiring.calls + 1) ∧
    (sample0.raw ≠ none ∧
      ∃ w1, ktap_overflow_callback (fire_hook 0 task_other 1) 0 task_other
          { attr := tracepoint_attr call_sys_enter_read, cpu := 0,
            tp_event := some call_sys_enter_read } record_counter sample0 none world_refiring
          = some w1 ∧
        closure_calls w1.calls = closure_calls world_refiring.calls + 1) :=
  ⟨⟨rfl, (reentrancy_guard 0 task_other).1 _ _ _ _ rfl⟩,
    ⟨rfl, rfl, (reentrancy_guard 0 task_other).2.2.2.1 0 _ _ _ rfl rfl⟩,
    ⟨by decide, (reentrancy_guard 0 task_other).2.2.2.2 0 _ _ _ _ _ (by decide) rfl rfl⟩⟩

/-- C9: self-exclusion. For both handlers and every state on entry, if the
firing task is in the thread group of the session's controlling task, the
handler adds no call to the log, so the closure is invoked zero times; the
handler returns (the counter handler whenever the sample carries raw data). -/
theorem self_exclusion (cpu : Nat) (current : task_struct)
    (fire : Action → World → Option World) (r : ktap_probe_event) (regs : Option pt_regs)
    (w : World) (hgrp : same_thread_group current w.task = true) :
    (∃ w1, pre_handler_kprobe fire cpu current r regs w = some (0, w1) ∧ w1.calls = w.calls ∧
      closure_calls w1.calls = closure_calls w.calls) ∧
    (∀ (event : perf_event) (data : perf_sample_data),
      (∀ w1, ktap_overflow_callback fire cpu current event r data regs w = some w1 →
        w1.calls = w.calls ∧ closure_calls w1.calls = closure_calls w.calls) ∧
      (data.raw ≠ none →
        ∃ w1, ktap_overflow_callback fire cpu current event r data regs w = some w1)) := by
  refine ⟨?_, ?_⟩
  · by_cases h : w.ktap_in_tracing cpu = true
    · exact ⟨w, by simp [pre_handler_kprobe, h], rfl, rfl⟩
    · simp [pre_handler_kprobe, h, hgrp]
  · intro event data
    by_cases h : w.ktap_in_tracing cpu = true
    · simp [ktap_overflow_callback, h]
    · cases hraw : data.raw with
      | none => simp [ktap_overflow_callback, h, hraw]
      | some raw => simp [ktap_overflow_callback, h, hraw, hgrp]

/-- C9 for a task of the controlling thread group, on both handlers. -/
theorem self_exclusion_witness :
    same_thread_group task_own world_refiring.task = true ∧
    (∃ w1, pre_handler_kprobe (fire_hook 0 task_own 1) 0 task_own record_refiring none
        world_refiring = some (0, w1) ∧ w1.calls = world_refiring.calls ∧
      closure_calls w1.calls = closure_calls world_refiring.calls) ∧
    sample0.raw ≠ none ∧
    ∃ w1, ktap_overflow_callback (fire_hook 0 task_own 1) 0 task_own
        { attr := tracepoint_attr call_sys_enter_read, cpu := 0,
          tp_event := some call_sys_enter_read } record_counter sample0 none world_refiring
        = some w1 :=
  ⟨rfl, (self_exclusion 0 task_own _ record_refiring none world_refiring rfl).1, by decide,
    ((self_exclusion 0 task_own _ record_counter none world_refiring rfl).2 _ sample0).2
      (by decide)⟩

/-- C10: teardown idempotence. For a registry of N records `end_probes` runs
each record's own teardown once (N teardown calls, in registry order), then the
quiescence wait, then unlinks and frees exactly those N records, once each, and
leaves the registry empty. On an empty registry no teardown and no free is
performed and the registry stays empty (the quiescence wait is the only call
made), so a second `end_probes` tears down nothing, frees nothing and leaves
the registry empty. -/
theorem end_probes_teardown (w : World) :
    (end_probes w).probe_events_head = [] ∧
    (end_probes w).calls = w.calls ++ (w.probe_events_head.map teardown_log).flatten
      ++ [Effect.tracepoint_synchronize_unregister]
      ++ (w.probe_events_head.map release_log).flatten ∧
    teardown_calls (end_probes w).calls = teardown_calls w.calls + w.probe_events_head.length ∧
    freed (end_probes w).calls = freed w.calls ++ w.probe_events_head ∧
    (w.probe_events_head = [] →
      end_probes w = { w with calls := w.calls ++ [Effect.tracepoint_synchronize_unregister] }) ∧
    (end_probes (end_probes w)).probe_events_head = [] ∧
    (end_probes (end_probes w)).calls
      = (end_probes w).calls ++ [Effect.tracepoint_synchronize_unregister] ∧
    teardown_calls (end_probes (end_probes w)).calls = teardown_calls (end_probes w).calls ∧
    freed (end_probes (end_probes w)).calls = freed (end_probes w).calls := by
  have h1 : (end_probes w).probe_events_head = [] := by rw [end_probes_eq]
  have h2 : (end_probes (end_probes w)).calls
      = (end_probes w).calls ++ [Effect.tracepoint_synchronize_unregister] := by
    rw [end_probes_eq (end_probes w), h1]; simp
  refine ⟨h1, by rw [end_probes_eq], ?_, ?_, ?_, ?_, h2, ?_, ?_⟩
  · rw [end_probes_eq]
    simp only [teardown_calls_append, teardown_calls_teardown, teardown_calls_release]
    rfl
  · rw [end_probes_eq]
    simp only [freed_append, freed_teardown, freed_release]
    simp [freed]
  · intro h
    rw [end_probes_eq, h]; simp
  · rw [end_probes_eq]
  · rw [h2, teardown_calls_append]; simp [teardown_calls]
  · rw [h2, freed_append]; simp [freed]

/-- C10 on the empty registry of `world0` and on the two records of
`world_refiring`. -/
theorem end_probes_teardown_witness :
    (world0.probe_events_head = [] ∧
      end_probes world0
        = { world0 with calls := world0.calls ++ [Effect.tracepoint_synchronize_unregister] }) ∧
    (end_probes world_refiring).probe_events_head = [] ∧
    freed (end_probes world_refiring).calls = [record_refiring, record_counter] ∧
    teardown_calls (end_probes world_refiring).calls = 2 :=
  ⟨⟨rfl, (end_probes_teardown world0).2.2.2.2.1 rfl⟩, (end_probes_teardown world_refiring).1,
    (end_probes_teardown world_refiring).2.2.2.1, (end_probes_teardown world_refiring).2.2.1⟩


/-! ## Claims about ordering, registration, the accessor table and truncation -/

/-! ## Teardown order -/

theorem teardown_log_all (r : ktap_probe_event) : ∀ c ∈ teardown_log r, is_teardown c = true := by
  cases hd : r.destructor <;> simp [teardown_log, hd, is_teardown]

theorem teardown_logs_all (l : List ktap_probe_event) :
    ∀ c ∈ (l.map teardown_log).flatten, is_teardown c = true := by
  intro c hc
  simp only [List.mem_flatten, List.mem_map] at hc
  obtain ⟨_, ⟨r, _, rfl⟩, hc⟩ := hc
  exact teardown_log_all r c hc

theorem release_logs_all (l : List ktap_probe_event) :
    ∀ c ∈ (l.map release_log).flatten, is_release c = true := by
  intro c hc
  simp only [List.mem_flatten, List.mem_map] at hc
  obtain ⟨_, ⟨r, _, rfl⟩, hc⟩ := hc
  simp only [release_log, List.mem_cons, List.mem_singleton, List.not_mem_nil, or_false] at hc
  rcases hc with rfl | rfl <;> rfl

/-- C11: teardown ordering. The calls `end_probes` makes are, in order: the
teardown calls of every record (nothing but unhook / disable / release-counter
calls), then the one quiescence wait `tracepoint_synchronize_unregister`, then
the unlink and free of every record (nothing but `list_del` and `ktap_free`).
So every record's teardown comes before the wait, and no record is unlinked or
freed before it. -/
theorem end_probes_order (w : World) :
    ∃ before after,
      (end_probes w).calls
        = w.calls ++ before ++ [Effect.tracepoint_synchronize_unregister] ++ after ∧
      before = (w.probe_events_head.map teardown_log).flatten ∧
      after = (w.probe_events_head.map release_log).flatten ∧
      (∀ c ∈ before, is_teardown c = true ∧ is_release c = false ∧
        c ≠ Effect.tracepoint_synchronize_unregister) ∧
      (∀ c ∈ after, is_release c = true ∧ is_teardown c = false ∧
        c ≠ Effect.tracepoint_synchronize_unregister) ∧
      (∀ r ∈ w.probe_events_head, ∀ c ∈ teardown_log r, c ∈ before) ∧
      (∀ r ∈ w.probe_events_head, Effect.list_del r ∈ after ∧ Effect.ktap_free r ∈ after) := by
  refine ⟨_, _, by rw [end_probes_eq], rfl, rfl, ?_, ?_, ?_, ?_⟩
  · intro c hc
    have h := teardown_logs_all _ c hc
    cases c <;> simp_all [is_teardown, is_release]
  · intro c hc
    have h := release_logs_all _ c hc
    cases c <;> simp_all [is_teardown, is_release]
  · intro r hr c hc
    simp only [List.mem_flatten, List.mem_map]
    exact ⟨_, ⟨r, hr, rfl⟩, hc⟩
  · intro r hr
    constructor <;>
    · simp only [List.mem_flatten, List.mem_map]
      exact ⟨_, ⟨r, hr, rfl⟩, by simp [release_log]⟩

/-! ## Point-probe registration -/

theorem eraseIdx_append_last {α : Type} (l : List α) (x : α) :
    (l ++ [x]).eraseIdx l.length = l := by
  induction l with
  | nil => rfl
  | cons a t ih => simp [List.eraseIdx, ih]

/-- C14: point-probe registration is atomic on failure. If `register_kprobe`
rejects the hook, `start_kprobe` returns -1, adds one diagnostic naming the
symbol and leaves the registry as it was; if it accepts, `start_kprobe` returns
0 and the registry is the previous one with one record appended: type
`EVENT_TYPE_KPROBE`, the kprobe on the symbol, the given closure, and the kprobe
destructor. -/
theorem start_kprobe_atomic (K : Kernel) (w : World) (event_name : CStr) (cl : Closure) :
    (K.register_kprobe { symbol_name := event_name } ≠ 0 →
      (start_kprobe K w event_name cl).1 = -1 ∧
      (start_kprobe K w event_name cl).2.probe_events_head = w.probe_events_head ∧
      (start_kprobe K w event_name cl).2.output = w.output ++
        [{ fmt := "Cannot register probe: %s\n", args := [printf_arg.s (some event_name)] }]) ∧
    (K.register_kprobe { symbol_name := event_name } = 0 →
      (start_kprobe K w event_name cl).1 = 0 ∧
      (start_kprobe K w event_name cl).2.probe_events_head = w.probe_events_head ++
        [{ type := EVENT_TYPE_KPROBE, u := probe_union.p { symbol_name := event_name }, cl := cl,
           destructor := Destructor.kprobe_destructor }] ∧
      (start_kprobe K w event_name cl).2.output = w.output) := by
  constructor
  · intro h
    simp [start_kprobe, h, log_call, ktap_printf, list_del, eraseIdx_append_last]
  · intro h
    simp [start_kprobe, h, log_call]

/-- C14 with a rejecting kernel (`kernel4`) and an accepting one (`kernel0`). -/
theorem start_kprobe_atomic_witness :
    (kernel4.register_kprobe { symbol_name := "do_fork".toList } ≠ 0 ∧
      (start_kprobe kernel4 world_refiring "do_fork".toList closure0).1 = -1 ∧
      (start_kprobe kernel4 world_refiring "do_fork".toList closure0).2.probe_events_head
        = world_refiring.probe_events_head ∧
      (start_kprobe kernel4 world_refiring "do_fork".toList closure0).2.output
        = world_refiring.output ++
          [{ fmt := "Cannot register probe: %s\n",
             args := [printf_arg.s (some "do_fork".toList)] }]) ∧
    (kernel0.register_kprobe { symbol_name := "do_fork".toList } = 0 ∧
      (start_kprobe kernel0 world_refiring "do_fork".toList closure0).1 = 0 ∧
      (start_kprobe kernel0 world_refiring "do_fork".toList closure0).2.probe_events_head
        = world_refiring.probe_events_head ++
          [{ type := EVENT_TYPE_KPROBE, u := probe_union.p { symbol_name := "do_fork".toList },
             cl := closure0, destructor := Destructor.kprobe_destructor }] ∧
      (start_kprobe kernel0 world_refiring "do_fork".toList closure0).2.output
        = world_refiring.output) :=
  ⟨⟨by decide, (start_kprobe_atomic kernel4 world_refiring _ closure0).1 (by decide)⟩,
    ⟨by decide, (start_kprobe_atomic kernel0 world_refiring _ closure0).2 (by decide)⟩⟩

/-! ## Counter registration, continued -/

theorem creation_attempts_append (a b : List Effect) :
    creation_attempts (a ++ b) = creation_attempts a ++ creation_attempts b := by
  simp [creation_attempts]

theorem enable_tracepoint_on_cpu_output (K : Kernel) (cpu : Nat) (attr : perf_event_attr)
    (call : ftrace_event_call) (arg : ktap_trace_arg) (type : Nat) (w : World) :
    (enable_tracepoint_on_cpu K cpu attr call arg type w).output
      = w.output ++ creation_diagnostics K attr call [cpu] := by
  simp only [enable_tracepoint_on_cpu, creation_diagnostics, List.filterMap_cons,
    List.filterMap_nil]
  cases K.perf_event_create_kernel_counter attr cpu <;> simp [log_call, ktap_printf]

theorem enable_tracepoint_on_cpu_attempts (K : Kernel) (cpu : Nat) (attr : perf_event_attr)
    (call : ftrace_event_call) (arg : ktap_trace_arg) (type : Nat) (w : World) :
    creation_attempts (enable_tracepoint_on_cpu K cpu attr call arg type w).calls
      = creation_attempts w.calls ++ [(attr, cpu)] := by
  simp only [enable_tracepoint_on_cpu]
  cases K.perf_event_create_kernel_counter attr cpu <;>
    simp [log_call, ktap_printf, creation_attempts]

theorem creation_diagnostics_cons (K : Kernel) (attr : perf_event_attr)
    (call : ftrace_event_call) (cpu : Nat) (cpus : List Nat) :
    creation_diagnostics K attr call (cpu :: cpus)
      = creation_diagnostics K attr call [cpu] ++ creation_diagnostics K attr call cpus := by
  simp only [creation_diagnostics, List.filterMap_cons, List.filterMap_nil]
  cases K.perf_event_create_kernel_counter attr cpu <;> simp

theorem enable_on_cpus_output (K : Kernel) (attr : perf_event_attr)
    (call : ftrace_event_call) (arg : ktap_trace_arg) (type : Nat) (cpus : List Nat) (w : World) :
    (cpus.foldl (fun st cpu => enable_tracepoint_on_cpu K cpu attr call arg type st) w).output
      = w.output ++ creation_diagnostics K attr call cpus := by
  induction cpus generalizing w with
  | nil => simp [creation_diagnostics]
  | cons cpu rest ih =>
    rw [List.foldl_cons, ih, enable_tracepoint_on_cpu_output,
      creation_diagnostics_cons K attr call cpu rest, List.append_assoc]

theorem enable_on_cpus_attempts (K : Kernel) (attr : perf_event_attr)
    (call : ftrace_event_call) (arg : ktap_trace_arg) (type : Nat) (cpus : List Nat) (w : World) :
    creation_attempts
        (cpus.foldl (fun st cpu => enable_tracepoint_on_cpu K cpu attr call arg type st) w).calls
      = creation_attempts w.calls ++ cpus.map (fun cpu => (attr, cpu)) := by
  induction cpus generalizing w with
  | nil => simp
  | cons cpu rest ih =>
    rw [List.foldl_cons, ih, enable_tracepoint_on_cpu_attempts]
    simp

theorem armed_records_length (K : Kernel) (attr : perf_event_attr) (arg : ktap_trace_arg)
    (type : Nat) (cpus : List Nat) :
    (armed_records K attr arg type cpus).length = (cpus.filter (creation_ok K attr)).length := by
  induction cpus with
  | nil => rfl
  | cons cpu rest ih =>
    rw [armed_records_cons, List.length_append, ih, List.filter_cons]
    cases h : K.perf_event_create_kernel_counter attr cpu with
    | ok ev => simp [armed_records, creation_ok, h]; omega
    | error err => simp [armed_records, creation_ok, h]

theorem creation_diagnostics_length (K : Kernel) (attr : perf_event_attr)
    (call : ftrace_event_call) (cpus : List Nat) :
    (creation_diagnostics K attr call cpus).length
      = (cpus.filter (fun cpu => !creation_ok K attr cpu)).length := by
  induction cpus with
  | nil => rfl
  | cons cpu rest ih =>
    rw [creation_diagnostics_cons, List.length_append, ih, List.filter_cons]
    cases h : K.perf_event_create_kernel_counter attr cpu with
    | ok ev => simp [creation_diagnostics, creation_ok, h]
    | error err => simp [creation_diagnostics, creation_ok, h]; omega

/-- C12: partial success of counter registration. For a named entry and any
outcome of the per-CPU creations, `enable_tracepoint` attempts one creation on
every possible CPU, in order, whatever failed before; appends after the
existing records exactly the records of the CPUs whose creation succeeded, in
CPU order (each owning the closure, with the counter destructor), and none for
a failed CPU; and after its announcement emits one diagnostic per failed CPU
with the entry's name, the CPU and the error. -/
theorem enable_tracepoint_partial_success (K : Kernel) (arg : ktap_trace_arg)
    (call : ftrace_event_call) (name : CStr) (hname : call.name = some name) (w : World) :
    ∃ w1, enable_tracepoint K arg call w = some w1 ∧
      creation_attempts w1.calls = creation_attempts w.calls ++
        K.possible_cpus.map (fun cpu => (tracepoint_attr call, cpu)) ∧
      w1.probe_events_head = w.probe_events_head ++
        armed_records K (tracepoint_attr call) arg (event_type_of_name name) K.possible_cpus ∧
      (armed_records K (tracepoint_attr call) arg (event_type_of_name name)
          K.possible_cpus).length
        = (K.possible_cpus.filter (creation_ok K (tracepoint_attr call))).length ∧
      (∀ r ∈ armed_records K (tracepoint_attr call) arg (event_type_of_name name)
          K.possible_cpus,
        r.cl = arg.cl ∧ r.destructor = Destructor.perf_destructor) ∧
      w1.output = w.output ++
        [{ fmt := "enable tracepoint event: %s\n", args := [printf_arg.s call.name] }] ++
        creation_diagnostics K (tracepoint_attr call) call K.possible_cpus ∧
      (creation_diagnostics K (tracepoint_attr call) call K.possible_cpus).length
        = (K.possible_cpus.filter (fun cpu => !creation_ok K (tracepoint_attr call) cpu)).length := by
  refine ⟨_, by simp only [enable_tracepoint, hname]; rfl, ?_, ?_, armed_records_length _ _ _ _ _,
    ?_, ?_, creation_diagnostics_length _ _ _ _⟩
  · rw [enable_on_cpus_attempts]; rfl
  · rw [enable_on_cpus_registry]; rfl
  · intro r hr
    exact (armed_records_type K _ arg _ _ r hr).2
  · rw [enable_on_cpus_output]
    simp only [ktap_printf, hname, tracepoint_attr]

/-- C12 on four CPUs with creation failing on CPU 2: three new records, for
CPUs 0, 1 and 3, four attempts, one diagnostic naming CPU 2. -/
theorem enable_tracepoint_partial_success_witness :
    call_sys_enter_read.name = some "sys_enter_read".toList ∧
    ∃ w1, enable_tracepoint kernel4 { cl := closure0 } call_sys_enter_read world0 = some w1 ∧
      w1.probe_events_head = [record_enter 0, record_enter 1, record_enter 3] ∧
      creation_attempts w1.calls
        = [(tracepoint_attr call_sys_enter_read, 0), (tracepoint_attr call_sys_enter_read, 1),
           (tracepoint_attr call_sys_enter_read, 2), (tracepoint_attr call_sys_enter_read, 3)] ∧
      w1.output
        = [{ fmt := "enable tracepoint event: %s\n",
             args := [printf_arg.s (some "sys_enter_read".toList)] },
           { fmt := "unable create tracepoint event %s on cpu %d, err: %d\n",
             args := [printf_arg.s (some "sys_enter_read".toList), printf_arg.d 2,
                      printf_arg.d (-22)] }] := by
  obtain ⟨w1, h1, h2, h3, _, _, h6, _⟩ :=
    enable_tracepoint_partial_success kernel4 { cl := closure0 } call_sys_enter_read _ rfl world0
  exact ⟨rfl, w1, h1, h3.trans (by decide), h2.trans (by decide), h6.trans (by decide)⟩

/-- C15: for every event name, the classification `enable_tracepoint` passes to
every `enable_tracepoint_on_cpu` call, and that every record it creates
carries, is `EVENT_TYPE_SYSCALL_ENTER` if the name starts with `sys_enter_`,
`EVENT_TYPE_SYSCALL_EXIT` if it starts with `sys_exit_`, and
`EVENT_TYPE_DEFAULT` otherwise; it is computed once and is the same for all
CPUs. -/
theorem enable_tracepoint_classification (K : Kernel) (arg : ktap_trace_arg)
    (call : ftrace_event_call) (name : CStr) (hname : call.name = some name) (w : World) :
    event_type_of_name name
      = (if "sys_enter_".toList <+: name then EVENT_TYPE_SYSCALL_ENTER
         else if "sys_exit_".toList <+: name then EVENT_TYPE_SYSCALL_EXIT
         else EVENT_TYPE_DEFAULT) ∧
    enable_tracepoint K arg call w
      = some (K.possible_cpus.foldl
          (fun st cpu => enable_tracepoint_on_cpu K cpu (tracepoint_attr call) call arg
            (event_type_of_name name) st)
          (ktap_printf w "enable tracepoint event: %s\n" [printf_arg.s call.name])) ∧
    ∃ w1, enable_tracepoint K arg call w = some w1 ∧
      ∃ created, w1.probe_events_head = w.probe_events_head ++ created ∧
        ∀ r ∈ created, r.type = event_type_of_name name := by
  have h10 : (strncmp name "sys_enter_".toList 10 == 0) = decide ("sys_enter_".toList <+: name) :=
    strncmp_literal name _
  have h9 : (strncmp name "sys_exit_".toList 9 == 0) = decide ("sys_exit_".toList <+: name) :=
    strncmp_literal name _
  refine ⟨?_, by simp only [enable_tracepoint, hname]; rfl, ?_⟩
  · simp only [event_type_of_name, h10, h9, decide_eq_true_eq]
  · obtain ⟨w1, hw1, hreg⟩ := enable_tracepoint_registry K arg call name hname w
    exact ⟨w1, hw1, _, hreg, fun r hr => (armed_records_type K _ arg _ _ r hr).1⟩

/-- C15 at `sys_exit_read`, `sys_enter_read` and `sched_switch`. -/
theorem enable_tracepoint_classification_witness :
    call_sys_exit_read.name = some "sys_exit_read".toList ∧
    event_type_of_name "sys_exit_read".toList = EVENT_TYPE_SYSCALL_EXIT ∧
    event_type_of_name "sys_enter_read".toList = EVENT_TYPE_SYSCALL_ENTER ∧
    event_type_of_name "sched_switch".toList = EVENT_TYPE_DEFAULT ∧
    ∃ w1, enable_tracepoint kernel0 { cl := closure0 } call_sys_exit_read world0 = some w1 ∧
      ∃ created, w1.probe_events_head = world0.probe_events_head ++ created ∧
        ∀ r ∈ created, r.type = event_type_of_name "sys_exit_read".toList :=
  ⟨rfl, by decide, by decide, by decide,
    (enable_tracepoint_classification kernel0 { cl := closure0 } call_sys_exit_read _ rfl
      world0).2.2⟩

theorem selected_name (ie : Nat) (f : EventFilter) (c : ftrace_event_call)
    (h : event_call_selected ie f c = true) : c.name ≠ none := by
  rcases c with ⟨name, cls, ev, pf, fl⟩
  cases name <;> simp_all [event_call_selected]

theorem enable_tracepoint_actor_fold (K : Kernel) (arg : ktap_trace_arg)
    (p : ftrace_event_call → Bool) (hp : ∀ c, p c = true → c.name ≠ none)
    (l : List ftrace_event_call) (w : World) :
    ∃ w1 added,
      l.foldl (fun st c => if p c then enable_tracepoint_actor K arg c st else st) (some w)
        = some w1 ∧
      w1.probe_events_head = w.probe_events_head ++ added := by
  induction l generalizing w with
  | nil => exact ⟨w, [], rfl, by simp⟩
  | cons c cs ih =>
    by_cases hc : p c = true
    · obtain ⟨nm, hnm⟩ := Option.ne_none_iff_exists'.mp (hp c hc)
      obtain ⟨w1, hw1, hreg⟩ := enable_tracepoint_registry K arg c nm hnm w
      obtain ⟨w2, added, hw2, hreg2⟩ := ih w1
      refine ⟨w2, armed_records K (tracepoint_attr c) arg (event_type_of_name nm) K.possible_cpus
        ++ added, ?_, ?_⟩
      · simp only [List.foldl_cons, hc, if_true, enable_tracepoint_actor, Option.some_bind, hw1]
        exact hw2
      · rw [hreg2, hreg, List.append_assoc]
    · obtain ⟨w2, added, hw2, hreg2⟩ := ih w
      refine ⟨w2, added, ?_, hreg2⟩
      simp only [List.foldl_cons, hc, Bool.false_eq_true, if_false]
      exact hw2

theorem start_tracepoint_total (K : Kernel) (cat : List ftrace_event_call) (w : World)
    (spec : CStr) (cl : Closure) :
    ∃ w1 added, start_tracepoint K cat w spec cl = some (0, w1) ∧
      w1.probe_events_head = w.probe_events_head ++ added := by
  obtain ⟨w1, added, h, hreg⟩ := enable_tracepoint_actor_fold K { cl := cl }
    (event_call_selected K.TRACE_EVENT_FL_IGNORE_ENABLE
      (parse_event_spec (if spec.head? = none then none else some spec)))
    (fun c hc => selected_name _ _ c hc) cat w
  refine ⟨w1, added, ?_, hreg⟩
  simp only [start_tracepoint, ftrace_on_event_call, h, Option.map_some']

theorem start_probe_eq_reference (K : Kernel) (cat : List ftrace_event_call) (w : World)
    (s : CStr) (cl : Closure) :
    start_probe K cat w s cl = start_probe_reference K cat w s cl := by
  have h7 : (strncmp s "kprobe:".toList 7 == 0) = decide ("kprobe:".toList <+: s) :=
    strncmp_literal s _
  have h8 : (strncmp s "kprobes:".toList 8 == 0) = decide ("kprobes:".toList <+: s) :=
    strncmp_literal s _
  have h11 : (strncmp s "tracepoint:".toList 11 == 0) = decide ("tracepoint:".toList <+: s) :=
    strncmp_literal s _
  have h3 : (strncmp s "tp:".toList 3 == 0) = decide ("tp:".toList <+: s) :=
    strncmp_literal s _
  simp only [start_probe, start_probe_reference, h7, h8, h11, h3, decide_eq_true_eq]
  rfl

theorem start_probe_tp (K : Kernel) (cat : List ftrace_event_call) (w : World)
    (rest : CStr) (cl : Closure) :
    start_probe K cat w ("tp:".toList ++ rest) cl = start_tracepoint K cat w rest cl := by
  rw [start_probe_eq_reference]
  simp [start_probe_reference]

theorem start_probe_tracepoint (K : Kernel) (cat : List ftrace_event_call) (w : World)
    (rest : CStr) (cl : Closure) :
    start_probe K cat w ("tracepoint:".toList ++ rest) cl = start_tracepoint K cat w rest cl := by
  rw [start_probe_eq_reference]
  simp [start_probe_reference]

/-- C13 (amended): for every spec, catalog and per-CPU creation outcome,
`start_tracepoint` (and `start_probe` for a `tp:` or `tracepoint:` spec)
returns 0, whatever the number of counters it armed; the counters armed are the
records the call appends to the registry. -/
theorem start_tracepoint_returns_zero (K : Kernel) (cat : List ftrace_event_call) (w : World)
    (spec : CStr) (cl : Closure) :
    (∃ w1 added, start_tracepoint K cat w spec cl = some (0, w1) ∧
      w1.probe_events_head = w.probe_events_head ++ added) ∧
    (∃ w1 added, start_probe K cat w ("tp:".toList ++ spec) cl = some (0, w1) ∧
      w1.probe_events_head = w.probe_events_head ++ added) ∧
    (∃ w1 added, start_probe K cat w ("tracepoint:".toList ++ spec) cl = some (0, w1) ∧
      w1.probe_events_head = w.probe_events_head ++ added) := by
  rw [start_probe_tp, start_probe_tracepoint]
  exact ⟨start_tracepoint_total K cat w spec cl, start_tracepoint_total K cat w spec cl,
    start_tracepoint_total K cat w spec cl⟩

/-- C13 as stated fails: on four CPUs with creation failing on CPU 2 and one
matched event, three counters are armed (records for CPUs 0, 1 and 3) and the
value returned is 0, not 3. -/
theorem start_tracepoint_count_not_reported :
    (start_probe kernel4 [call_sys_enter_read] world0 "tp:sys_enter_read".toList closure0).map
        (fun r => (r.1, r.2.probe_events_head))
      = some (0, [record_enter 0, record_enter 1, record_enter 3]) ∧
    (start_tracepoint kernel4 [call_sys_enter_read] world0 "sys_enter_read".toList closure0).map
        (fun r => (r.1, r.2.probe_events_head.length)) = some (0, 3) := by
  decide

/-! ## The accessor table -/

theorem get_index_loop_spec (l : List event_field_tbl) (i : Nat) (field : CStr) :
    (ktap_event_get_index_loop l i field = -1 ∧ ∀ entry ∈ l, entry.name ≠ field) ∨
    ∃ k entry, l.get? k = some entry ∧ entry.name = field ∧
      ktap_event_get_index_loop l i field = EVENT_FIELD_BASE + ((i + k : Nat) : Int) := by
  induction l generalizing i with
  | nil => left; simp [ktap_event_get_index_loop]
  | cons entry rest ih =>
    by_cases h : entry.name = field
    · right
      refine ⟨0, entry, rfl, h, ?_⟩
      simp [ktap_event_get_index_loop, strcmp_eq_zero_iff, h]
    · have hs : (strcmp entry.name field == 0) = false := by
        simp [strcmp_eq_zero_iff, h]
      rcases ih (i + 1) with ⟨h1, h2⟩ | ⟨k, e2, hk, hn, hv⟩
      · left
        refine ⟨by simp only [ktap_event_get_index_loop, hs, Bool.false_eq_true, if_false]; exact h1,
          ?_⟩
        intro e2 he2
        rcases List.mem_cons.mp he2 with rfl | hm
        · exact h
        · exact h2 e2 hm
      · right
        refine ⟨k + 1, e2, by simpa using hk, hn, ?_⟩
        simp only [ktap_event_get_index_loop, hs, Bool.false_eq_true, if_false, hv]
        congr 2
        omega

theorem event_ftbl_length : event_ftbl.length = 14 := rfl

/-- C16: `ktap_event_get_index` returns `EVENT_FIELD_BASE` (100) plus the
position of the name in the 14-entry table (`annotate` = 100 .. `field1` = 113)
and -1 for a string that is no table name. A found index lies in 100 .. 113, is
the index of an entry of that name only (distinct names, distinct indices), and
`ktap_event_handle` called with it runs that entry's accessor; for `name` the
result is the descriptor's catalog name. -/
theorem accessor_table_index (field : CStr) :
    (ktap_event_get_index "annotate".toList = 100 ∧ ktap_event_get_index "name".toList = 101 ∧
      ktap_event_get_index "print_fmt".toList = 102 ∧ ktap_event_get_index "sc_nr".toList = 103 ∧
      ktap_event_get_index "sc_is_enter".toList = 104 ∧
      ktap_event_get_index "sc_arg1".toList = 105 ∧ ktap_event_get_index "sc_arg2".toList = 106 ∧
      ktap_event_get_index "sc_arg3".toList = 107 ∧ ktap_event_get_index "sc_arg4".toList = 108 ∧
      ktap_event_get_index "sc_arg5".toList = 109 ∧ ktap_event_get_index "sc_arg6".toList = 110 ∧
      ktap_event_get_index "regstr".toList = 111 ∧ ktap_event_get_index "allfield".toList = 112 ∧
      ktap_event_get_index "field1".toList = 113) ∧
    ((∀ entry ∈ event_ftbl, entry.name ≠ field) → ktap_event_get_index field = -1) ∧
    (ktap_event_get_index field ≠ -1 →
      EVENT_FIELD_BASE ≤ ktap_event_get_index field ∧
      ktap_event_get_index field < EVENT_FIELD_BASE + 14 ∧
      ∃ entry, event_ftbl.get? (ktap_event_get_index field - EVENT_FIELD_BASE).toNat = some entry ∧
        entry.name = field ∧
        ∀ (K : Kernel) (T : TracePipeline) (e : ktap_event) (ra : Tvalue),
          ktap_event_handle K T e (ktap_event_get_index field) ra = entry.func K T e) ∧
    (∀ other : CStr, ktap_event_get_index field ≠ -1 →
      ktap_event_get_index other = ktap_event_get_index field → other = field) ∧
    (∀ (K : Kernel) (T : TracePipeline) (e : ktap_event) (ra : Tvalue)
        (call : ftrace_event_call) (name : CStr), e.call = some call → call.name = some name →
      ktap_event_handle K T e (ktap_event_get_index "name".toList) ra
        = some (Tvalue.string name)) := by
  have found : ∀ f : CStr, ktap_event_get_index f ≠ -1 →
      ∃ k entry, event_ftbl.get? k = some entry ∧ entry.name = f ∧
        ktap_event_get_index f = EVENT_FIELD_BASE + (k : Int) ∧ k < 14 := by
    intro f hf
    rcases get_index_loop_spec event_ftbl 0 f with ⟨h1, _⟩ | ⟨k, entry, hk, hn, hv⟩
    · exact absurd h1 hf
    · refine ⟨k, entry, hk, hn, by simpa [ktap_event_get_index] using hv, ?_⟩
      have := List.get?_eq_some.mp hk
      obtain ⟨hlt, _⟩ := this
      rw [event_ftbl_length] at hlt
      exact hlt
  refine ⟨by decide, ?_, ?_, ?_, ?_⟩
  · intro h
    rcases get_index_loop_spec event_ftbl 0 field with ⟨h1, _⟩ | ⟨k, entry, hk, hn, _⟩
    · exact h1
    · exact absurd hn (h entry (List.get?_mem hk))
  · intro h
    obtain ⟨k, entry, hk, hn, hv, hlt⟩ := found field h
    have hk2 : (ktap_event_get_index field - EVENT_FIELD_BASE).toNat = k := by
      rw [hv]; simp
    refine ⟨by rw [hv]; omega, by rw [hv]; omega, entry, by rw [hk2]; exact hk, hn, ?_⟩
    intro K T e ra
    have hge : ¬ ktap_event_get_index field < EVENT_FIELD_BASE := by rw [hv]; omega
    simp only [ktap_event_handle, hge, if_false, hk2, hk]
  · intro other h heq
    obtain ⟨k, entry, hk, hn, hv, _⟩ := found field h
    obtain ⟨k2, entry2, hk2, hn2, hv2, _⟩ := found other (by rw [heq]; exact h)
    have : k2 = k := by
      have := heq
      rw [hv, hv2] at this
      omega
    subst this
    rw [hk] at hk2
    cases hk2
    rw [← hn, ← hn2]
  · intro K T e ra call name hcall hname
    have h101 : ktap_event_get_index "name".toList = 101 := by decide
    rw [h101]
    simp [ktap_event_handle, EVENT_FIELD_BASE, event_ftbl, event_name, hcall, hname]

/-- C16 at `pid` (not in the table), `sc_nr` and `name`. -/
theorem accessor_table_index_witness :
    (∀ entry ∈ event_ftbl, entry.name ≠ "pid".toList) ∧
    ktap_event_get_index "pid".toList = -1 ∧
    ktap_event_get_index "sc_nr".toList ≠ -1 ∧
    EVENT_FIELD_BASE ≤ ktap_event_get_index "sc_nr".toList ∧
    ktap_event_handle kernel0 pipeline0 (event_view0 call_sys_enter_read)
        (ktap_event_get_index "name".toList) Tvalue.nil
      = some (Tvalue.string "sys_enter_read".toList) := by
  have hne : ∀ entry ∈ event_ftbl, entry.name ≠ "pid".toList := by
    intro entry h
    simp only [event_ftbl, List.mem_cons, List.mem_singleton, List.not_mem_nil, or_false] at h
    rcases h with rfl | rfl | rfl | rfl | rfl | rfl | rfl | rfl | rfl | rfl | rfl | rfl | rfl | rfl <;>
      decide
  have hsc : ktap_event_get_index "sc_nr".toList ≠ -1 := by decide
  exact ⟨hne, (accessor_table_index "pid".toList).2.1 hne, hsc,
    ((accessor_table_index "sc_nr".toList).2.2.1 hsc).1,
    (accessor_table_index "name".toList).2.2.2.2 kernel0 pipeline0 _ _ call_sys_enter_read _ rfl
      rfl⟩

/-- C18 at the failing input: on the event view `pre_handler_kprobe` builds
for a record of `start_kprobe` (descriptor and payload absent), `sc_nr` and
`sc_arg1` .. `sc_arg6` reached through `ktap_event_handle` give nil, but
`annotate` and `field1` do not complete: both read through the NULL
descriptor. -/
theorem kprobe_view_accessors (K : Kernel) (T : TracePipeline) (regs : Option pt_regs)
    (sym : CStr) (cl : Closure) (ra : Tvalue) :
    let e := kprobe_event_view
      { type := EVENT_TYPE_KPROBE, u := probe_union.p { symbol_name := sym }, cl := cl,
        destructor := Destructor.kprobe_destructor } regs
    ktap_event_handle K T e (ktap_event_get_index "annotate".toList) ra = none ∧
    ktap_event_handle K T e (ktap_event_get_index "field1".toList) ra = none ∧
    ktap_event_handle K T e (ktap_event_get_index "sc_nr".toList) ra = some Tvalue.nil ∧
    ktap_event_handle K T e (ktap_event_get_index "sc_arg1".toList) ra = some Tvalue.nil ∧
    ktap_event_handle K T e (ktap_event_get_index "sc_arg2".toList) ra = some Tvalue.nil ∧
    ktap_event_handle K T e (ktap_event_get_index "sc_arg3".toList) ra = some Tvalue.nil ∧
    ktap_event_handle K T e (ktap_event_get_index "sc_arg4".toList) ra = some Tvalue.nil ∧
    ktap_event_handle K T e (ktap_event_get_index "sc_arg5".toList) ra = some Tvalue.nil ∧
    ktap_event_handle K T e (ktap_event_get_index "sc_arg6".toList) ra = some Tvalue.nil := by
  have h100 : ktap_event_get_index "annotate".toList = 100 := by decide
  have h113 : ktap_event_get_index "field1".toList = 113 := by decide
  have h103 : ktap_event_get_index "sc_nr".toList = 103 := by decide
  have h105 : ktap_event_get_index "sc_arg1".toList = 105 := by decide
  have h106 : ktap_event_get_index "sc_arg2".toList = 106 := by decide
  have h107 : ktap_event_get_index "sc_arg3".toList = 107 := by decide
  have h108 : ktap_event_get_index "sc_arg4".toList = 108 := by decide
  have h109 : ktap_event_get_index "sc_arg5".toList = 109 := by decide
  have h110 : ktap_event_get_index "sc_arg6".toList = 110 := by decide
  intro e
  rw [h100, h113, h103, h105, h106, h107, h108, h109, h110]
  refine ⟨?_, ?_, ?_⟩
  · simp [e, ktap_event_handle, EVENT_FIELD_BASE, event_ftbl, event_annotate, kprobe_event_view]
  · simp [e, ktap_event_handle, EVENT_FIELD_BASE, event_ftbl, event_field1, event_field,
      ktap_get_fields, kprobe_event_view]
  · simp [e, ktap_event_handle, EVENT_FIELD_BASE, event_ftbl, event_sc_nr, event_sc_arg1,
      event_sc_arg2, event_sc_arg3, event_sc_arg4, event_sc_arg5, event_sc_arg6, event_sc_arg,
      kprobe_event_view, EVENT_TYPE_KPROBE, EVENT_TYPE_SYSCALL_ENTER]

/-! ## Flag restoration -/

theorem pre_handler_kprobe_restores (fire : Action → World → Option World) (cpu : Nat)
    (hfire : ∀ a w, w.ktap_in_tracing cpu = true → fire a w = some w)
    (current : task_struct) (r : ktap_probe_event) (regs : Option pt_regs) (w : World) :
    ∃ w1, pre_handler_kprobe fire cpu current r regs w = some (0, w1) ∧
      w1.ktap_in_tracing = w.ktap_in_tracing ∧ w1.irqs_disabled = w.irqs_disabled := by
  by_cases hflag : w.ktap_in_tracing cpu = true
  · exact ⟨w, by simp [pre_handler_kprobe, hflag], rfl, rfl⟩
  · have hflag : w.ktap_in_tracing cpu = false := by simpa using hflag
    by_cases hgrp : same_thread_group current w.task = true
    · refine ⟨{ w with ktap_in_tracing :=
          Function.update (Function.update w.ktap_in_tracing cpu true) cpu false }, ?_, ?_, rfl⟩
      · simp [pre_handler_kprobe, hflag, hgrp]
      · exact update_restore _ _ _ _ hflag
    · have hgrp : same_thread_group current w.task = false := by simpa using hgrp
      exact ⟨_, pre_handler_kprobe_dispatch fire cpu hfire current r regs w hflag hgrp, rfl, rfl⟩

theorem ktap_overflow_callback_restores (fire : Action → World → Option World) (cpu : Nat)
    (hfire : ∀ a w, w.ktap_in_tracing cpu = true → fire a w = some w)
    (current : task_struct) (event : perf_event) (r : ktap_probe_event)
    (data : perf_sample_data) (regs : Option pt_regs) (w : World) :
    (∀ w1, ktap_overflow_callback fire cpu current event r data regs w = some w1 →
      w1.ktap_in_tracing = w.ktap_in_tracing ∧ w1.irqs_disabled = w.irqs_disabled) ∧
    (w.ktap_in_tracing cpu = true ∨ data.raw ≠ none →
      ∃ w1, ktap_overflow_callback fire cpu current event r data regs w = some w1) := by
  by_cases hflag : w.ktap_in_tracing cpu = true
  · simp [ktap_overflow_callback, hflag]
  · have hflag : w.ktap_in_tracing cpu = false := by simpa using hflag
    cases hraw : data.raw with
    | none => simp [ktap_overflow_callback, hflag, hraw]
    | some raw =>
      by_cases hgrp : same_thread_group current w.task = true
      · simp [ktap_overflow_callback, hflag, hraw, hgrp, update_restore _ _ _ _ hflag]
      · have hgrp : same_thread_group current w.task = false := by simpa using hgrp
        rw [ktap_overflow_callback_dispatch fire cpu hfire current event r data raw hraw regs w
          hflag hgrp]
        simp

/-- C17: the per-CPU in-dispatch flag is always restored. Every invocation of
`pre_handler_kprobe` returns, and every returning invocation of
`ktap_overflow_callback` (it returns whenever the flag is set or the sample
carries raw data) ends with `ktap_in_tracing` and the interrupt-disable state
as they were on entry; in particular with the flag clear when it was clear on
entry, on the closure path and on the self-exclusion path alike. -/
theorem in_tracing_restored (cpu : Nat) (current : task_struct) (n : Nat)
    (r : ktap_probe_event) (regs : Option pt_regs) (w : World) :
    (∃ w1, pre_handler_kprobe (fire_hook cpu current (n + 1)) cpu current r regs w
        = some (0, w1) ∧
      w1.ktap_in_tracing = w.ktap_in_tracing ∧ w1.irqs_disabled = w.irqs_disabled ∧
      (w.ktap_in_tracing cpu = false → w1.ktap_in_tracing cpu = false)) ∧
    (∀ (event : perf_event) (data : perf_sample_data),
      (∀ w1, ktap_overflow_callback (fire_hook cpu current (n + 1)) cpu current event r data
            regs w = some w1 →
        w1.ktap_in_tracing = w.ktap_in_tracing ∧ w1.irqs_disabled = w.irqs_disabled ∧
        (w.ktap_in_tracing cpu = false → w1.ktap_in_tracing cpu = false)) ∧
      (w.ktap_in_tracing cpu = true ∨ data.raw ≠ none →
        ∃ w1, ktap_overflow_callback (fire_hook cpu current (n + 1)) cpu current event r data
          regs w = some w1)) := by
  have hfire : ∀ a w, w.ktap_in_tracing cpu = true → fire_hook cpu current (n + 1) a w = some w :=
    fun a w h => fire_hook_in_tracing cpu current n a w h
  constructor
  · obtain ⟨w1, h1, h2, h3⟩ := pre_handler_kprobe_restores _ cpu hfire current r regs w
    exact ⟨w1, h1, h2, h3, fun h => by rw [h2]; exact h⟩
  · intro event data
    obtain ⟨h1, h2⟩ := ktap_overflow_callback_restores _ cpu hfire current event r data regs w
    refine ⟨fun w1 hw1 => ?_, h2⟩
    obtain ⟨h3, h4⟩ := h1 w1 hw1
    exact ⟨h3, h4, fun h => by rw [h3]; exact h⟩

/-! ## The closure call -/

theorem ktap_call_probe_closure_eq (fire : Action → World → Option World) (cl : Closure)
    (e : ktap_event) (w : World) :
    ktap_call_probe_closure fire cl e w
      = (ktap_call fire (probe_thread cl e) 0 (ktap_newthread w).2).map
          (ktap_exitthread (probe_thread cl e)) := by
  have hks : (if (cl.numparams != 0) = true
      then ({ stack := [Tvalue.closure cl] ++ [Tvalue.event e] } : ktap_State)
      else { stack := [Tvalue.closure cl] }) = probe_thread cl e := by
    cases h : (cl.numparams != 0) <;> simp [probe_thread, h]
  simp only [ktap_call_probe_closure, ktap_newthread, List.nil_append, List.length_nil, hks]
  cases ktap_call fire (probe_thread cl e) 0 (log_call w Effect.ktap_newthread) <;> rfl

/-- C19: for both handlers, entered with the flag clear by a task outside the
controlling thread group, `ktap_call_probe_closure` runs once: the log gains
`ktap_newthread`, one `ktap_call` of the record's closure, `ktap_exitthread`,
in this order. The new thread starts with an empty stack; the closure is pushed
first, and the event view is pushed if and only if `numparams` is not 0, so the
stack holds 2 entries when `numparams > 0` and exactly 1 when it is 0. -/
theorem probe_closure_call (cpu : Nat) (current : task_struct) (n : Nat)
    (r : ktap_probe_event) (regs : Option pt_regs) (w : World)
    (hflag : w.ktap_in_tracing cpu = false)
    (hgrp : same_thread_group current w.task = false) :
    (∀ (fire : Action → World → Option World) (e : ktap_event) (w0 : World),
      ktap_call_probe_closure fire r.cl e w0
        = (ktap_call fire (probe_thread r.cl e) 0 (ktap_newthread w0).2).map
            (ktap_exitthread (probe_thread r.cl e)) ∧
      (ktap_newthread w0).1.stack = [] ∧
      (ktap_newthread w0).2.calls = w0.calls ++ [Effect.ktap_newthread] ∧
      (probe_thread r.cl e).stack.get? 0 = some (Tvalue.closure r.cl) ∧
      (0 < r.cl.numparams →
        (probe_thread r.cl e).stack = [Tvalue.closure r.cl, Tvalue.event e] ∧
        (probe_thread r.cl e).stack.length = (ktap_newthread w0).1.stack.length + 2) ∧
      (r.cl.numparams = 0 →
        (probe_thread r.cl e).stack = [Tvalue.closure r.cl] ∧
        (probe_thread r.cl e).stack.length = (ktap_newthread w0).1.stack.length + 1)) ∧
    pre_handler_kprobe (fire_hook cpu current (n + 1)) cpu current r regs w
      = some (0, { w with calls := w.calls ++
          [Effect.ktap_newthread,
           Effect.ktap_call r.cl ((probe_thread r.cl (kprobe_event_view r regs)).stack.drop 1),
           Effect.ktap_exitthread] }) ∧
    (∀ (event : perf_event) (data : perf_sample_data) (raw : perf_raw_record),
      data.raw = some raw →
      ktap_overflow_callback (fire_hook cpu current (n + 1)) cpu current event r data regs w
        = some { w with calls := w.calls ++
            [Effect.ktap_newthread,
             Effect.ktap_call r.cl
               ((probe_thread r.cl (overflow_event_view event r raw regs)).stack.drop 1),
             Effect.ktap_exitthread] }) := by
  have hfire : ∀ a w, w.ktap_in_tracing cpu = true → fire_hook cpu current (n + 1) a w = some w :=
    fun a w h => fire_hook_in_tracing cpu current n a w h
  refine ⟨?_, ?_, ?_⟩
  · intro fire e w0
    refine ⟨ktap_call_probe_closure_eq fire r.cl e w0, rfl, rfl, rfl, ?_, ?_⟩
    · intro hp
      have hb : (r.cl.numparams != 0) = true := by simpa using Nat.pos_iff_ne_zero.mp hp
      simp [probe_thread, hb, ktap_newthread]
    · intro hp
      simp [probe_thread, hp, ktap_newthread]
  · rw [pre_handler_kprobe_dispatch _ cpu hfire current r regs w hflag hgrp]
    simp [closure_call_log, probe_thread]
  · intro event data raw hraw
    rw [ktap_overflow_callback_dispatch _ cpu hfire current event r data raw hraw regs w hflag hgrp]
    simp [closure_call_log, probe_thread]

/-- C19 for the one-parameter closure of `record_refiring`. -/
theorem probe_closure_call_witness :
    world_refiring.ktap_in_tracing 0 = false ∧
    same_thread_group task_other world_refiring.task = false ∧
    0 < record_refiring.cl.numparams ∧
    (probe_thread record_refiring.cl kprobe_view0).stack
      = [Tvalue.closure record_refiring.cl, Tvalue.event kprobe_view0] ∧
    pre_handler_kprobe (fire_hook 0 task_other 1) 0 task_other record_refiring none world_refiring
      = some (0, { world_refiring with calls := world_refiring.calls ++
          [Effect.ktap_newthread,
           Effect.ktap_call record_refiring.cl
             ((probe_thread record_refiring.cl
                (kprobe_event_view record_refiring none)).stack.drop 1),
           Effect.ktap_exitthread] }) :=
  ⟨rfl, rfl, by decide,
    ((probe_closure_call 0 task_other 0 record_refiring none world_refiring rfl rfl).1
      (fire_hook 0 task_other 1) kprobe_view0 world_refiring).2.2.2.2.1 (by decide) |>.1,
    (probe_closure_call 0 task_other 0 record_refiring none world_refiring rfl rfl).2.1⟩

/-! ## Truncation of the spec -/

theorem split_at_colon (t : CStr) (h : ':' ∈ t) :
    t = t.takeWhile (fun c => c != ':') ++ ':' :: (t.dropWhile (fun c => c != ':')).drop 1 ∧
    ':' ∉ t.takeWhile (fun c => c != ':') := by
  induction t with
  | nil => simp at h
  | cons x xs ih =>
    by_cases hx : x = ':'
    · subst hx
      simp [List.takeWhile, List.dropWhile]
    · have hm : ':' ∈ xs := by
        rcases List.mem_cons.mp h with h1 | h1
        · exact absurd h1.symm hx
        · exact h1
      obtain ⟨h1, h2⟩ := ih hm
      have hb : (x != ':') = true := by simpa using hx
      simp only [List.takeWhile, List.dropWhile, hb, List.cons_append, List.mem_cons, not_or]
      exact ⟨by rw [← h1], fun e => hx e.symm, h2⟩

theorem parse_truncated (s : CStr) :
    parse_event_spec (some s) = parse_event_spec (some (s.take 31)) := by
  simp [parse_event_spec, strncpy, List.take_take]

theorem on_event_call_truncated {σ : Type} (ie : Nat) (cat : List ftrace_event_call)
    (actor : ftrace_event_call → σ → σ) (data : σ) (s : CStr) :
    ftrace_on_event_call ie cat (some s) actor data
      = ftrace_on_event_call ie cat (some (s.take 31)) actor data := by
  simp only [ftrace_on_event_call, parse_truncated s]

theorem on_event_call_short {σ : Type} (ie : Nat) (cat : List ftrace_event_call)
    (actor : ftrace_event_call → σ → σ) (data : σ) (t : CStr) (hlen : t.length ≤ 31) :
    ftrace_on_event_call ie cat (some t) actor data
      = (cat.filter (fun c => eligible ie c && spec_rule t c)).foldl
          (fun st c => actor c st) data := by
  by_cases h : ':' ∈ t
  · obtain ⟨h1, h2⟩ := split_at_colon t h
    have hlen2 : (t.takeWhile (fun c => c != ':') ++
        ':' :: (t.dropWhile (fun c => c != ':')).drop 1).length ≤ 31 := by rw [← h1]; exact hlen
    have := on_event_call_colon ie cat actor data _ _ h2 hlen2
    rw [← h1] at this
    rw [this]
    simp only [spec_rule, h, if_true]
  · rw [on_event_call_token ie cat actor data t h hlen]
    simp only [spec_rule, h, if_false]

/-- C20: for every catalog and every spec `s`, `ftrace_on_event_call` selects
exactly the eligible entries that the `subsystem:name` rules select for the
first 31 bytes of `s`. A spec of at most 31 bytes is matched in full; when the
first 31 bytes hold no colon (any colon lies at byte 32 or later) the cut text
is a single token compared with name and subsystem. -/
theorem ftrace_on_event_call_truncation {σ : Type} (ie : Nat) (cat : List ftrace_event_call)
    (actor : ftrace_event_call → σ → σ) (data : σ) (s : CStr) :
    ftrace_on_event_call ie cat (some s) actor data
      = (cat.filter (fun c => eligible ie c && spec_rule (s.take 31) c)).foldl
          (fun st c => actor c st) data ∧
    (s.length ≤ 31 →
      ftrace_on_event_call ie cat (some s) actor data
        = (cat.filter (fun c => eligible ie c && spec_rule s c)).foldl
            (fun st c => actor c st) data) ∧
    (':' ∉ s.take 31 →
      ftrace_on_event_call ie cat (some s) actor data
        = (cat.filter (fun c => eligible ie c &&
            (has_name c (s.take 31) || has_system c (s.take 31)))).foldl
            (fun st c => actor c st) data) := by
  have hlen : (s.take 31).length ≤ 31 := by simp
  have h := on_event_call_short ie cat actor data (s.take 31) hlen
  rw [← on_event_call_truncated] at h
  refine ⟨h, ?_, ?_⟩
  · intro hs
    rw [h, List.take_of_length_le hs]
  · intro hc
    rw [h]
    simp only [spec_rule, hc, if_false, token_rule]

/-- C20 at an 18-byte spec, and at a 46-byte spec whose colon is byte 32: the
entry selected is the one named by the first 31 bytes. -/
theorem ftrace_on_event_call_truncation_witness :
    ("sched:sched_switch".toList.length ≤ 31 ∧
      ftrace_on_event_call 8 catalog0 (some "sched:sched_switch".toList) record_actor []
        = [call_sched_switch]) ∧
    (':' ∉ "sys_enter_sched_get_priority_ma:sys_enter_read".toList.take 31 ∧
      ftrace_on_event_call 8 [call_sched_max, call_cut_name, call_sys_enter_read]
          (some "sys_enter_sched_get_priority_ma:sys_enter_read".toList) record_actor []
        = [call_cut_name]) :=
  ⟨⟨by decide,
      ((ftrace_on_event_call_truncation 8 catalog0 record_actor []
        "sched:sched_switch".toList).2.1 (by decide)).trans (by decide)⟩,
    ⟨by decide,
      ((ftrace_on_event_call_truncation 8 [call_sched_max, call_cut_name, call_sys_enter_read]
        record_actor [] "sys_enter_sched_get_priority_ma:sys_enter_read".toList).2.2
          (by decide)).trans (by decide)⟩⟩

/-- C11 on the two records of `world_refiring`: one unhook, the disable and
release of the counter, the wait, then unlink and free of each record. -/
theorem end_probes_order_witness :
    ∃ before after,
      (end_probes world_refiring).calls
        = world_refiring.calls ++ before ++ [Effect.tracepoint_synchronize_unregister] ++ after ∧
      before = [Effect.unregister_kprobe record_refiring.u,
                Effect.perf_event_disable record_counter.u,
                Effect.perf_event_release_kernel record_counter.u] ∧
      after = [Effect.list_del record_refiring, Effect.ktap_free record_refiring,
               Effect.list_del record_counter, Effect.ktap_free record_counter] := by
  obtain ⟨b, a, h1, h2, h3, _⟩ := end_probes_order world_refiring
  exact ⟨b, a, h1, h2.trans (by decide), h3.trans (by decide)⟩

/-- C17 on `world_refiring`, for a task outside and a task inside the
controlling thread group. -/
theorem in_tracing_restored_witness :
    world_refiring.ktap_in_tracing 0 = false ∧
    (∃ w1, pre_handler_kprobe (fire_hook 0 task_other 1) 0 task_other record_refiring none
        world_refiring = some (0, w1) ∧
      w1.ktap_in_tracing 0 = false) ∧
    (∃ w1, pre_handler_kprobe (fire_hook 0 task_own 1) 0 task_own record_refiring none
        world_refiring = some (0, w1) ∧
      w1.ktap_in_tracing 0 = false) ∧
    sample0.raw ≠ none ∧
    ∃ w1, ktap_overflow_callback (fire_hook 0 task_other 1) 0 task_other (perf_event_read 0)
        record_counter sample0 none world_refiring = some w1 ∧
      w1.ktap_in_tracing 0 = false ∧ w1.irqs_disabled = world_refiring.irqs_disabled := by
  obtain ⟨⟨w1, h1, _, _, h4⟩, _⟩ :=
    in_tracing_restored 0 task_other 0 record_refiring none world_refiring
  obtain ⟨⟨w2, g1, _, _, g4⟩, _⟩ :=
    in_tracing_restored 0 task_own 0 record_refiring none world_refiring
  obtain ⟨_, k⟩ := in_tracing_restored 0 task_other 0 record_counter none world_refiring
  obtain ⟨k1, k2⟩ := k (perf_event_read 0) sample0
  obtain ⟨w3, hw3⟩ := k2 (Or.inr (by decide))
  obtain ⟨_, k4, k5⟩ := k1 w3 hw3
  exact ⟨rfl, ⟨w1, h1, h4 rfl⟩, ⟨w2, g1, g4 rfl⟩, by decide, ⟨w3, hw3, k5 rfl, k4⟩⟩

end Ktap
